import Mathlib

/-!
Verification development for the rule-based HTML accessibility repair engine
(`src/server/accessibility-engine.ts`).

The TypeScript engine works by scanning a raw markup string with a fixed set
of regular expressions, rewriting matched spans, and accumulating an issue
ledger.  This file gives a shallow embedding of that code: JavaScript strings
are modelled as `List Char` (one `Char` per UTF-16 code unit; every character
appearing in the engine's patterns and in the inputs of interest lies in the
Basic Multilingual Plane, where the two notions of index coincide), each
regular expression of the source is implemented as an explicit, total scanner
with the same matching discipline (leftmost match, alternation order,
greediness, word boundaries, case-insensitivity over ASCII), and JavaScript
numbers are modelled by `ℚ` (the engine only ever divides by the configured
base size, multiplies by 10000 and rounds; `Option ℚ` with `none` standing
for `NaN` covers `parseFloat` failures).  Places where the rational model or
the plain-text replacement model could deviate from IEEE doubles or from
`$`-substitution in `String.replace` are marked in comments; no claim below
depends on them.
-/

/-! ### Character classes and basic string utilities (JS semantics) -/

/-- ASCII lower-casing of a character.  The engine only compares against
ASCII patterns (`_blank`, attribute and tag names), so the ASCII fragment of
JavaScript `toLowerCase` is the part that matters. -/
def lowChar (c : Char) : Char :=
  if 'A' ≤ c ∧ c ≤ 'Z' then Char.ofNat (c.toNat + 32) else c

/-- JavaScript `\w` (word character): `[A-Za-z0-9_]`. -/
def isWordChar (c : Char) : Bool :=
  ('a' ≤ c && c ≤ 'z') || ('A' ≤ c && c ≤ 'Z') || ('0' ≤ c && c ≤ '9') || c = '_'

/-- JavaScript `\s` (whitespace, the WhiteSpace ∪ LineTerminator set). -/
def isJsSpace (c : Char) : Bool :=
  let n := c.toNat
  (9 ≤ n && n ≤ 13) || n = 32 || n = 160 || n = 0x1680 ||
  (0x2000 ≤ n && n ≤ 0x200a) || n = 0x2028 || n = 0x2029 ||
  n = 0x202f || n = 0x205f || n = 0x3000 || n = 0xfeff

def isDigitCh (c : Char) : Bool := '0' ≤ c && c ≤ '9'

/-- A character of the regex class `[\d.]`. -/
def isNumCh (c : Char) : Bool := isDigitCh c || c = '.'

abbrev Chars := List Char

theorem dropWhileLenLe (p : Char → Bool) (l : Chars) :
    (l.dropWhile p).length ≤ l.length := by
  induction l with
  | nil => simp [List.dropWhile]
  | cons c cs ih =>
    by_cases h : p c
    · simp [List.dropWhile, h]; omega
    · simp [List.dropWhile, h]

/-- JavaScript `String.prototype.trim` on the `List Char` model. -/
def jsTrim (l : Chars) : Chars :=
  ((l.dropWhile isJsSpace).reverse.dropWhile isJsSpace).reverse

/-- ASCII `toLowerCase` over a character list. -/
def lowStr (l : Chars) : Chars := l.map lowChar

/-- Case-insensitive prefix stripping: on success returns the consumed
characters (in their original case) and the remainder. -/
def ciStrip : Chars → Chars → Option (Chars × Chars)
  | [], l => some ([], l)
  | _ :: _, [] => none
  | p :: ps, c :: cs =>
      if lowChar c = lowChar p then
        (ciStrip ps cs).map (fun pr => (c :: pr.1, pr.2))
      else none

def ciStartsWith (pat l : Chars) : Bool := (ciStrip pat l).isSome

/-- Index of the first occurrence of `pat` in `hay` (JS `String.indexOf`,
`some 0` for the empty pattern, `none` when absent). -/
def indexOfSub : Chars → Chars → Option Nat
  | hay, pat =>
    if pat.isPrefixOf hay then some 0
    else match hay with
      | [] => none
      | _ :: t => (indexOfSub t pat).map (· + 1)

def containsSub (hay pat : Chars) : Bool := (indexOfSub hay pat).isSome

/-- Case-insensitive substring test. -/
def ciContains : Chars → Chars → Bool
  | hay, pat =>
    if ciStartsWith pat hay then true
    else match hay with
      | [] => false
      | _ :: t => ciContains t pat

/-- The characters strictly after the first occurrence of `c`; `none` when
`c` is absent.  Models `s.split(c).slice(1).join(c)` (everything after the
first separator). -/
def afterFirstCh (c : Char) : Chars → Option Chars
  | [] => none
  | x :: xs => if x = c then some xs else afterFirstCh c xs

/-- Split a character list on a separator character (JS `String.split`). -/
def splitOnCh (c : Char) (l : Chars) : List Chars :=
  match l with
  | [] => [[]]
  | x :: xs =>
      let r := splitOnCh c xs
      if x = c then [] :: r
      else match r with
        | [] => [[x]]
        | h :: t => (x :: h) :: t

/-- First occurrence replacement of a plain substring (used for
`tr.replace(firstTd, th)`; the source's `String.replace` would additionally
interpret `$`-patterns inside the replacement text, which never arise in the
inputs any claim touches). -/
def replaceFirstSub (hay pat repl : Chars) : Chars :=
  match indexOfSub hay pat with
  | none => hay
  | some i => hay.take i ++ repl ++ hay.drop (i + pat.length)

/-! ### Rational model of the JS number operations used by the engine -/

/-- `Math.round` (round half toward positive infinity). -/
def jsRound (q : ℚ) : ℤ := ⌊q + 1/2⌋

/-- Natural number from a list of decimal digit characters. -/
def natOfDigits (l : Chars) : Nat :=
  l.foldl (fun acc c => 10 * acc + (c.toNat - '0'.toNat)) 0

/-- `parseFloat` restricted to tokens of the regex class `[\d.]+` (the only
shape the engine ever feeds it): leading integer part, optional fraction;
`none` models `NaN` (e.g. for the token `"."`).  A token such as `1.2.3`
parses as `1.2`, as in JavaScript. -/
def jsParseFloatTok (tok : Chars) : Option ℚ :=
  let d1 := tok.takeWhile isDigitCh
  let rest := tok.dropWhile isDigitCh
  match rest with
  | '.' :: r2 =>
      let d2 := r2.takeWhile isDigitCh
      if d1.isEmpty ∧ d2.isEmpty then none
      else some ((natOfDigits d1 : ℚ) + (natOfDigits d2 : ℚ) / ((10 : ℚ) ^ d2.length))
  | _ => if d1.isEmpty then none else some ((natOfDigits d1 : ℚ))

/-- Decimal digit characters of a natural number. -/
def digitsOfNat (n : Nat) : Chars := (Nat.toDigits 10 n)

/-- `(n / 10000).toString()` for an integer `n`, matching the JS shortest
form for the magnitudes the engine produces: integer part, then a fractional
part of up to four digits with trailing zeros removed. -/
def tenThousandthsToString (n : ℤ) : String :=
  let sign := if n < 0 then "-" else ""
  let m := n.natAbs
  let ip := m / 10000
  let fp := m % 10000
  if fp = 0 then sign ++ ⟨digitsOfNat ip⟩
  else
    let raw := digitsOfNat fp
    let padded := List.replicate (4 - raw.length) '0' ++ raw
    let trimmed := (padded.reverse.dropWhile (· = '0')).reverse
    sign ++ ⟨digitsOfNat ip⟩ ++ "." ++ ⟨trimmed⟩

/-- `(Math.round(v * 10000) / 10000).toString()`; `none` (NaN) prints as
`"NaN"`. -/
def roundedNumToString (v : Option ℚ) : String :=
  match v with
  | none => "NaN"
  | some q => tenThousandthsToString (jsRound (q * 10000))

/-- `emFromPx` of the source: `px / basePx`, rounded to 4 decimals, suffixed
with `em`.  (JS division by zero would give `Infinity`; `ℚ` gives `0`.  No
claim exercises `basePx = 0`.) -/
def emFromPx (px : Option ℚ) (basePx : ℚ) : String :=
  roundedNumToString (px.map (· / basePx)) ++ "em"

/-- `emFromPt` of the source: project convention 12pt = 1em, the default
`basePt = 12` is never overridden at any call site. -/
def emFromPt (pt : Option ℚ) : String :=
  roundedNumToString (pt.map (· / 12)) ++ "em"

/-! ### The attribute matcher
`addOrUpdateAttr` / `getAttr` both search the tag text with the pattern
`\sNAME\s*=\s*("([^"]*)"|'([^']*)'|[^\s>]+)` (case-insensitive, leftmost
match, alternatives tried in order; an unterminated quoted value falls
through to the bare-token alternative, which may then start with the quote
character itself). -/

/-- `"([^"]*)"` — double-quoted value: returns (raw matched text, captured
content, rest); fails when the closing quote is missing. -/
def dquotVal (l : Chars) : Option (Chars × Chars × Chars) :=
  match l with
  | '"' :: r =>
      let content := r.takeWhile (· ≠ '"')
      match r.dropWhile (· ≠ '"') with
      | '"' :: rest => some ('"' :: (content ++ ['"']), content, rest)
      | _ => none
  | _ => none

/-- `'([^']*)'` — single-quoted value. -/
def squotVal (l : Chars) : Option (Chars × Chars × Chars) :=
  match l with
  | '\'' :: r =>
      let content := r.takeWhile (· ≠ '\'')
      match r.dropWhile (· ≠ '\'') with
      | '\'' :: rest => some ('\'' :: (content ++ ['\'']), content, rest)
      | _ => none
  | _ => none

/-- `[^\s>]+` — bare value token (greedy, at least one character). -/
def unquotVal (l : Chars) : Option (Chars × Chars × Chars) :=
  let tok := l.takeWhile (fun c => !(isJsSpace c) && c ≠ '>')
  if tok.isEmpty then none else some (tok, tok, l.dropWhile (fun c => !(isJsSpace c) && c ≠ '>'))

/-- The `("([^\"]*)"|'([^']*)'|[^\s>]+)` value group, alternatives in
order. -/
def attrValAlt (l : Chars) : Option (Chars × Chars × Chars) :=
  match dquotVal l with
  | some v => some v
  | none =>
      match squotVal l with
      | some v => some v
      | none => unquotVal l

/-- Try the attribute pattern at the head of `l`: on success returns
(whole matched text, captured value, remainder). -/
def attrMatchAt (name : Chars) (l : Chars) : Option (Chars × Chars × Chars) :=
  match l with
  | [] => none
  | s :: l1 =>
      if isJsSpace s then
        match ciStrip name l1 with
        | none => none
        | some (nm, r1) =>
            match r1.dropWhile isJsSpace with
            | '=' :: r3 =>
                match attrValAlt (r3.dropWhile isJsSpace) with
                | some (raw, gv, rest) =>
                    some ((s :: nm) ++ r1.takeWhile isJsSpace ++
                      ('=' :: r3.takeWhile isJsSpace) ++ raw, gv, rest)
                | none => none
            | _ => none
      else none

/-- Leftmost match of the attribute pattern: (prefix before the match,
matched text, captured value, remainder). -/
def findAttr (name : Chars) : Chars → Option (Chars × Chars × Chars × Chars)
  | [] => none
  | c :: cs =>
      match attrMatchAt name (c :: cs) with
      | some (m, gv, rest) => some ([], m, gv, rest)
      | none => (findAttr name cs).map (fun x => (c :: x.1, x.2.1, x.2.2.1, x.2.2.2))

/-- `getAttr` of the source: captured value of the leftmost attribute match
(`m[2] ?? m[3] ?? m[4]`). -/
def getAttr (tag name : String) : Option String :=
  (findAttr name.data tag.data).map (fun x => ⟨x.2.2.1⟩)

/-- `v.replace(/^["']|["']$/g, "")`: strip one leading and one trailing
quote character (of either kind, independently; a single quote character is
consumed by the leading alternative only). -/
def stripEdgeQuotes (v : Chars) : Chars :=
  let v1 := match v with
    | c :: cs => if c = '"' ∨ c = '\'' then cs else v
    | [] => ([] : Chars)
  match v1.getLast? with
  | some c => if c = '"' ∨ c = '\'' then v1.dropLast else v1
  | none => v1

/-- The inserted attribute text ` NAME="VALUE"`. -/
def attrInsertText (name value : Chars) : Chars :=
  ' ' :: name ++ ('=' :: '"' :: value) ++ ['"']

/-- `addOrUpdateAttr` of the source.  When the pattern matches, the callback
rewrites the match only if the value — everything after the first `=`,
trimmed, with edge quotes stripped — is blank; otherwise the match is kept
verbatim.  When the pattern does not match, ` NAME="VALUE"` is inserted
before a trailing `>` (`tag.replace(/>$/, ...)`; no `$`-substitution arises
because the pattern precludes `$` in the relevant replacement positions). -/
def addOrUpdateAttr (tag attrName attrValue : String) : String :=
  match findAttr attrName.data tag.data with
  | some (pre, m, _, rest) =>
      if jsTrim (stripEdgeQuotes (jsTrim ((afterFirstCh '=' m).getD []))) = [] then
        ⟨pre ++ attrInsertText attrName.data attrValue.data ++ rest⟩
      else ⟨pre ++ m ++ rest⟩
  | none =>
      match tag.data.getLast? with
      | some '>' => ⟨tag.data.dropLast ++ attrInsertText attrName.data attrValue.data ++ ['>']⟩
      | _ => tag

/-! ### `stripTags` -/

/-- First case-insensitive occurrence of `pat` in `hay`. -/
def ciIndexOfSub : Chars → Chars → Option Nat
  | hay, pat =>
    if ciStartsWith pat hay then some 0
    else match hay with
      | [] => none
      | _ :: t => (ciIndexOfSub t pat).map (· + 1)

/-- Global removal of lazily-delimited blocks `OPEN[\s\S]*?CLOSE`
(case-insensitive), e.g. comments and script/style blocks.  A block whose
close delimiter is missing is not a match (the scanner keeps the character
and moves on, as the JS regex does). -/
def removeLazyBlocks (fuel : Nat) (openPat closePat : Chars) : Chars → Chars
  | [] => []
  | c :: cs =>
    match fuel with
    | 0 => c :: cs
    | fuel + 1 =>
      match ciStrip openPat (c :: cs) with
      | some (_, r1) =>
          match ciIndexOfSub r1 closePat with
          | some i => removeLazyBlocks fuel openPat closePat (r1.drop (i + closePat.length))
          | none => c :: removeLazyBlocks fuel openPat closePat cs
      | none => c :: removeLazyBlocks fuel openPat closePat cs

/-- Global removal of `<[^>]+>`. -/
def removeAngleTags (fuel : Nat) : Chars → Chars
  | [] => []
  | c :: cs =>
    match fuel with
    | 0 => c :: cs
    | fuel + 1 =>
      if c = '<' then
        let content := cs.takeWhile (· ≠ '>')
        if content.isEmpty then c :: removeAngleTags fuel cs
        else match cs.dropWhile (· ≠ '>') with
          | '>' :: rest => removeAngleTags fuel rest
          | _ => c :: removeAngleTags fuel cs
      else c :: removeAngleTags fuel cs

/-- Global replacement of `&nbsp;` (case-insensitive) by a space. -/
def replaceNbsp (fuel : Nat) : Chars → Chars
  | [] => []
  | c :: cs =>
    match fuel with
    | 0 => c :: cs
    | fuel + 1 =>
      match ciStrip ("&nbsp;".data) (c :: cs) with
      | some (_, r) => ' ' :: replaceNbsp fuel r
      | none => c :: replaceNbsp fuel cs

/-- Global replacement of `\s+` by a single space. -/
def collapseSpaces (fuel : Nat) : Chars → Chars
  | [] => []
  | c :: cs =>
    match fuel with
    | 0 => c :: cs
    | fuel + 1 =>
      if isJsSpace c then ' ' :: collapseSpaces fuel (cs.dropWhile isJsSpace)
      else c :: collapseSpaces fuel cs

/-- `stripTags` of the source: drop comments, script blocks, style blocks
and tags, replace `&nbsp;` by spaces, collapse whitespace runs, trim. -/
def stripTags (html : String) : String :=
  let l0 := html.data
  let l1 := removeLazyBlocks l0.length ("<!--".data) ("-->".data) l0
  let l2 := removeLazyBlocks l1.length ("<script".data) ("</script>".data) l1
  let l3 := removeLazyBlocks l2.length ("<style".data) ("</style>".data) l2
  let l4 := removeAngleTags l3.length l3
  let l5 := replaceNbsp l4.length l4
  let l6 := collapseSpaces l5.length l5
  ⟨jsTrim l6⟩

/-! ### `normalizeInlineStyle` -/

/-- Global replacement of `([\d.]+)\s*UNIT\b` inside a value string, the
captured numeric token being rewritten by `conv`; returns the new text and
whether any replacement happened.  (Backtracking never helps this pattern:
shortening the greedy `[\d.]+` run leaves the next character in `[\d.]`,
which can match neither `\s*` nor the unit letter, so the maximal-run
scanner below agrees with the JS engine.) -/
def unitReplace (fuel : Nat) (unit : Chars) (conv : Chars → Chars) : Chars → (Chars × Bool)
  | [] => ([], false)
  | c :: cs =>
    match fuel with
    | 0 => (c :: cs, false)
    | fuel + 1 =>
      let tok := (c :: cs).takeWhile isNumCh
      if tok.isEmpty then
        let r := unitReplace fuel unit conv cs
        (c :: r.1, r.2)
      else
        let after := (c :: cs).dropWhile isNumCh
        let r2 := after.dropWhile isJsSpace
        match ciStrip unit r2 with
        | some (_, r3) =>
            if (r3.head?.map isWordChar).getD false then
              -- the `\b` after the unit fails: no match starts here
              let r := unitReplace fuel unit conv cs
              (c :: r.1, r.2)
            else
              let r := unitReplace fuel unit conv r3
              (conv tok ++ r.1, true)
        | none =>
            let r := unitReplace fuel unit conv cs
            (c :: r.1, r.2)

/-- The declaration parser of `normalizeInlineStyle`: split on `;`, trim,
split each piece at its first `:`, lower-case the property. -/
def parseDecls (style : String) : List (String × String) :=
  (splitOnCh ';' style.data).filterMap (fun part =>
    let p := jsTrim part
    if p.isEmpty then none
    else match afterFirstCh ':' p with
      | none => none
      | some after =>
          some (⟨lowStr (jsTrim (p.takeWhile (· ≠ ':')))⟩, (⟨jsTrim after⟩ : String)))

/-- One step of the conversion map of `normalizeInlineStyle`: drop `width`
when `removeWidth` is set, convert `px`/`pt` (and, for `font-size`, also
`rem`) to `em`.  Returns the converted declaration (`none` when dropped) and
whether anything changed. -/
def convStep (basePx : ℚ) (removeWidth : Bool) (d : String × String) :
    Option (String × String) × Bool :=
  if removeWidth ∧ d.1 = "width" then (none, true)
  else
    let v0 := d.2.data
    let pxConv := fun tok : Chars => (emFromPx (jsParseFloatTok tok) basePx).data
    let ptConv := fun tok : Chars => (emFromPt (jsParseFloatTok tok)).data
    let remConv := fun tok : Chars => (roundedNumToString (jsParseFloatTok tok) ++ "em").data
    let fs :=
      if d.1 = "font-size" then
        let a := unitReplace v0.length "px".data pxConv v0
        let b := unitReplace a.1.length "pt".data ptConv a.1
        let c := unitReplace b.1.length "rem".data remConv b.1
        (c.1, a.2 || b.2 || c.2)
      else (v0, false)
    let g1 := unitReplace fs.1.length "px".data pxConv fs.1
    let g2 := unitReplace g1.1.length "pt".data ptConv g1.1
    (some (d.1, (⟨g2.1⟩ : String)), fs.2 || g1.2 || g2.2)

/-- `prop.startsWith("padding-")`. -/
def isPadDash (p : String) : Bool := "padding-".data.isPrefixOf p.data

/-- The `pad` map of the source (`Map.set`, so the last declaration of a
property wins), queried at one key. -/
def padLookup (conv : List (String × String)) (k : String) : Option String :=
  ((conv.filter (fun d => d.1 = k)).getLast?).map (·.2)

def padKeys : List String := ["padding-top", "padding-right", "padding-bottom", "padding-left"]

/-- One entry of `padKeys.map(k => pad.get(k)).filter(Boolean)`: the looked-up
value, with an absent key **and** an empty value string both dropped (the
empty string is falsy in JavaScript). -/
def padPresentVal (conv : List (String × String)) (k : String) : Option String :=
  match padLookup conv k with
  | some v => if v = "" then none else some v
  | none => none

/-- The compression loop: drop every `padding-*` declaration, inserting a
single `padding` declaration in place of the first one. -/
def padCompressAux (v0 : String) : Bool → List (String × String) → List (String × String)
  | _, [] => []
  | inserted, d :: ds =>
      if isPadDash d.1 then
        if inserted then padCompressAux v0 true ds
        else ("padding", v0) :: padCompressAux v0 true ds
      else d :: padCompressAux v0 inserted ds

def padCompress (v0 : String) (conv : List (String × String)) : List (String × String) :=
  padCompressAux v0 false conv

/-- `converted.map(d => `${d.prop}:${d.value}`).join("; ")`. -/
def declsJoin (l : List (String × String)) : String :=
  String.intercalate "; " (l.map (fun d => d.1 ++ ":" ++ d.2))

structure NormalizedStyle where
  style : String
  changed : Bool
deriving DecidableEq, Repr

/-- The converted (unit-normalized, width-dropped) declaration list of a
style string. -/
def convertedDecls (style : String) (basePx : ℚ) (removeWidth : Bool) :
    List (String × String) :=
  ((parseDecls style).map (convStep basePx removeWidth)).filterMap (·.1)

/-- `normalizeInlineStyle` of the source.  Note the compression threshold in
the code is `presentVals.length >= 3`, equality of the present values is
string equality of the already-converted value texts, and `filter(Boolean)`
drops a `padding-*` declaration with an empty value from `presentVals`. -/
def normalizeInlineStyle (style : String) (basePx : ℚ) (removeWidth : Bool) :
    NormalizedStyle :=
  if style = "" then ⟨style, false⟩
  else
    let steps := (parseDecls style).map (convStep basePx removeWidth)
    let changed0 := steps.any (·.2)
    let conv := steps.filterMap (·.1)
    let presentVals := padKeys.filterMap (padPresentVal conv)
    let allEqual := match presentVals with
      | [] => true
      | v :: _ => presentVals.all (· = v)
    if 3 ≤ presentVals.length ∧ allEqual = true then
      ⟨declsJoin (padCompress (presentVals.headD "") conv),
       changed0 || conv.any (fun d => isPadDash d.1)⟩
    else ⟨declsJoin conv, changed0⟩

/-! ### Data model (`AccessibilityIssue`, `RepairResult`, configuration) -/

structure AccessibilityIssue where
  ruleId : String
  wcagCode : String
  taiwanCode : String
  level : String
  message : String
  line : Nat
  column : Nat
  startOffset : Nat
  endOffset : Nat
  originalSnippet : String
  fixedSnippet : Option String
  autoFixed : Bool
  needsManualReview : Bool
  suggestion : Option String
deriving DecidableEq, Repr

/-- `createIssue` of the source: location fields start at the sentinel 0. -/
def createIssue (ruleId wcagCode taiwanCode level message originalSnippet : String)
    (fixedSnippet : Option String) (autoFixed needsManualReview : Bool)
    (suggestion : Option String) : AccessibilityIssue where
  ruleId := ruleId
  wcagCode := wcagCode
  taiwanCode := taiwanCode
  level := level
  message := message
  line := 0
  column := 0
  startOffset := 0
  endOffset := 0
  originalSnippet := originalSnippet
  fixedSnippet := fixedSnippet
  autoFixed := autoFixed
  needsManualReview := needsManualReview
  suggestion := suggestion

structure RepairSummary where
  totalIssues : Nat
  autoFixed : Nat
  needsManualReview : Nat
deriving DecidableEq, Repr

structure RepairResult where
  originalHtml : String
  repairedHtml : String
  issues : List AccessibilityIssue
  summary : RepairSummary
deriving DecidableEq, Repr

/-- `config.rules` of the caller-supplied configuration; `none` models an
absent field (or a non-array value, which `Array.isArray` rejects). -/
structure RulesCfg where
  disabled : Option (List String)
  enabled : Option (List String)
deriving DecidableEq, Repr

structure PlaceholdersCfg where
  linkTitle : Option String
  linkText : Option String
  linkEmptyTitle : Option String
  imgAlt : Option String
  iframeTitle : Option String
  newWindowHint : Option String
deriving DecidableEq, Repr

structure RepairConfig where
  rules : Option RulesCfg
  placeholders : Option PlaceholdersCfg
  basePx : Option ℚ
  removeWidth : Option Bool
deriving DecidableEq, Repr

/-- `ruleEnabled` of the source. -/
def ruleEnabled (config : Option RepairConfig) (ruleId : String) : Bool :=
  match config.bind (·.rules) with
  | none => true
  | some rs =>
      let disabled := rs.disabled.getD []
      if disabled.contains ruleId then false
      else match rs.enabled with
        | some en => en.contains ruleId
        | none => true

/-- `config?.placeholders?.FIELD`. -/
def phOf (config : Option RepairConfig) (f : PlaceholdersCfg → Option String) :
    Option String :=
  (config.bind (·.placeholders)).bind f

/-- JS `x || d` for optional strings (the empty string is falsy). -/
def jsOr (o : Option String) (d : String) : String :=
  match o with
  | some s => if s = "" then d else s
  | none => d

/-- `config?.basePx ?? 16`. -/
def basePxOf (config : Option RepairConfig) : ℚ := (config.bind (·.basePx)).getD 16

/-- `config?.removeWidth ?? true`. -/
def removeWidthOf (config : Option RepairConfig) : Bool :=
  (config.bind (·.removeWidth)).getD true

/-! ### The generic global-replace scanner

`String.replace` with a `g`-flagged regex and a callback: scan left to
right; at a match, emit the callback's text and continue right after the
match (the callback may also record issues); otherwise keep the character.
`prev` carries the character preceding the current position (for the
look-behind half of `\b`). -/

def gReplace (fuel : Nat) (matchAt : Option Char → Chars → Option (Chars × Chars))
    (f : Chars → Chars × List AccessibilityIssue) (prev : Option Char) :
    Chars → Chars × List AccessibilityIssue
  | [] => ([], [])
  | c :: cs =>
    match fuel with
    | 0 => (c :: cs, [])
    | fuel + 1 =>
      match matchAt prev (c :: cs) with
      | some (m, rest) =>
          let r := f m
          let nextPrev := match m.getLast? with
            | some x => some x
            | none => prev
          let t := gReplace fuel matchAt f nextPrev rest
          (r.1 ++ t.1, r.2 ++ t.2)
      | none =>
          let t := gReplace fuel matchAt f (some c) cs
          (c :: t.1, t.2)

/-! ### Tag and span matchers -/

/-- Try `<(N1|N2|...)\b[^>]*>` at the head of `l`: returns (matched tag
text, rest). -/
def tagNamesTry (names : List Chars) (l1 : Chars) : Option (Chars × Chars) :=
  match names with
  | [] => none
  | name :: more =>
      match ciStrip name l1 with
      | some (nm, r1) =>
          if (r1.head?.map isWordChar).getD false then tagNamesTry more l1
          else
            let content := r1.takeWhile (· ≠ '>')
            match r1.dropWhile (· ≠ '>') with
            | '>' :: rest => some (('<' :: nm) ++ content ++ ['>'], rest)
            | _ => tagNamesTry more l1
      | none => tagNamesTry more l1

def tagMatchAt (names : List Chars) (l : Chars) : Option (Chars × Chars) :=
  match l with
  | '<' :: l1 => tagNamesTry names l1
  | _ => none

/-- `<NAME\b[^>]*>[\s\S]*?CLOSE` (lazy up to and including the first
case-insensitive occurrence of `CLOSE`). -/
def spanMatchAt (names : List Chars) (closePat : Chars) (l : Chars) :
    Option (Chars × Chars) :=
  match tagMatchAt names l with
  | none => none
  | some (openTag, r1) =>
      match ciIndexOfSub r1 closePat with
      | none => none
      | some i => some (openTag ++ r1.take (i + closePat.length), r1.drop (i + closePat.length))

/-- Leftmost tag match anywhere in `l` (JS `s.match(re)` without `g`):
(prefix, matched tag, rest). -/
def findFirstTag (names : List Chars) : Chars → Option (Chars × Chars × Chars)
  | [] => none
  | c :: cs =>
      match tagMatchAt names (c :: cs) with
      | some (m, rest) => some ([], m, rest)
      | none => (findFirstTag names cs).map (fun x => (c :: x.1, x.2.1, x.2.2))

/-- Leftmost span match anywhere in `l`. -/
def findFirstSpan (names : List Chars) (closePat : Chars) : Chars → Option (Chars × Chars × Chars)
  | [] => none
  | c :: cs =>
      match spanMatchAt names closePat (c :: cs) with
      | some (m, rest) => some ([], m, rest)
      | none => (findFirstSpan names closePat cs).map (fun x => (c :: x.1, x.2.1, x.2.2))

/-- `s.replace(tagRe, "")` for a non-global tag pattern: remove the leftmost
tag match. -/
def removeFirstTag (names : List Chars) (l : Chars) : Chars :=
  match findFirstTag names l with
  | some (pre, _, rest) => pre ++ rest
  | none => l

/-- Remove the leftmost case-insensitive occurrence of `pat`
(`s.replace(/PAT/i, "")`). -/
def removeFirstCI (pat : Chars) (l : Chars) : Chars :=
  match ciIndexOfSub l pat with
  | some i => l.take i ++ l.drop (i + pat.length)
  | none => l

/-- The look-for-`\bNAME\s*=` scan used by `/<a\b[^>]*\bhref\s*=/i` and the
label pattern: walk the `[^>]*` run, `prev` tracking the previous character
for the word boundary; succeed when `NAME` (case-insensitively) followed by
`\s*=` starts at a boundary. -/
def findNameEq (name : Chars) (prev : Char) : Chars → Bool
  | [] => false
  | c :: cs =>
      (if ¬ isWordChar prev then
        match ciStrip name (c :: cs) with
        | some (_, r1) =>
            match r1.dropWhile isJsSpace with
            | '=' :: _ => true
            | _ => false
        | none => false
      else false) ||
      (if c = '>' then false else findNameEq name c cs)

/-- `/<a\b[^>]*\bhref\s*=/i.test(openTag)`. -/
def hrefInOpen : Chars → Bool
  | [] => false
  | c :: cs =>
      (if c = '<' then
        match ciStrip "a".data cs with
        | some (_, r1) =>
            if (r1.head?.map isWordChar).getD false then false
            else findNameEq "href".data 'a' r1
        | none => false
      else false) || hrefInOpen cs

/-- `/新視窗|新窗口|另開|另開視窗|new window/i.test(t)`. -/
def hasNewWindowWording (t : Chars) : Bool :=
  ciContains t "新視窗".data || ciContains t "新窗口".data || ciContains t "另開".data ||
  ciContains t "另開視窗".data || ciContains t "new window".data

/-- Global replacement of a literal substring (`.replace(/\{text\}/g, r)`). -/
def replaceAllSub (fuel : Nat) (pat repl : Chars) : Chars → Chars
  | [] => []
  | c :: cs =>
    match fuel with
    | 0 => c :: cs
    | fuel + 1 =>
      if pat.isPrefixOf (c :: cs) ∧ pat ≠ [] then
        repl ++ replaceAllSub fuel pat repl ((c :: cs).drop pat.length)
      else c :: replaceAllSub fuel pat repl cs

/-- `getAttr` on the character-list representation. -/
def getAttrL (tag : Chars) (name : String) : Option Chars :=
  (findAttr name.data tag).map (·.2.2.1)

/-- `addOrUpdateAttr` on the character-list representation. -/
def addOrUpdateAttrL (tag : Chars) (name value : String) : Chars :=
  (addOrUpdateAttr ⟨tag⟩ name value).data

/-! ### Pass 1 (`frame-title`) and pass 2 (`img-alt`) replacers -/

def frameReplacer (config : Option RepairConfig) (tag : Chars) :
    Chars × List AccessibilityIssue :=
  let title := getAttrL tag "title"
  -- `!title || title.trim() === ""` (the empty string is falsy)
  if title = none ∨ jsTrim (title.getD []) = [] then
    let placeholder := jsOr (phOf config (·.iframeTitle)) "（請補上頁框標題）"
    let fixed := addOrUpdateAttrL tag "title" placeholder
    (fixed,
     [createIssue "frame-title" "4.1.2" "HM1410201C" "A"
        "頁框/內嵌頁框缺少 title 屬性或為空值" ⟨tag⟩ (some ⟨fixed⟩) true
        (containsSub placeholder.data "請補上".data)
        (some "請提供能描述此頁框用途的 title（例如：廣告、導覽、影片播放器等）")])
  else (tag, [])

def imgReplacer (config : Option RepairConfig) (tag : Chars) :
    Chars × List AccessibilityIssue :=
  let alt := getAttrL tag "alt"
  -- `alt == null` only: a present empty alt is allowed outside links
  match alt with
  | none =>
      let placeholder := jsOr (phOf config (·.imgAlt)) "（請補上圖片替代文字）"
      let fixed := addOrUpdateAttrL tag "alt" placeholder
      (fixed,
       [createIssue "img-alt" "1.1.1" "HM1110101C" "A" "圖片缺少 alt 屬性" ⟨tag⟩
          (some ⟨fixed⟩) true true
          (some "若為裝飾圖片可使用 alt=\"\"；若為資訊性/功能性圖片請描述其用途/內容")])
  | some _ => (tag, [])

/-- The `<img>` fix applied inside anchors (missing **or empty** alt). -/
def linkImgReplacer (config : Option RepairConfig) (imgTag : Chars) :
    Chars × List AccessibilityIssue :=
  let alt := getAttrL imgTag "alt"
  if alt = none ∨ jsTrim (alt.getD []) = [] then
    let placeholder := jsOr (phOf config (·.imgAlt)) "（請補上圖片替代文字）"
    let fixed := addOrUpdateAttrL imgTag "alt" placeholder
    (fixed,
     [createIssue "img-alt" "1.1.1" "HM1110101C" "A"
        "鏈結中的圖片需提供可描述目的的 alt（不可為空）" ⟨imgTag⟩ (some ⟨fixed⟩) true true
        (some "若此圖片為鏈結的唯一可讀內容，alt 應描述鏈結目的；避免使用空值 alt=\"\"。")])
  else (imgTag, [])

/-! ### Pass 3: the anchor pass (not itself gated by `ruleEnabled`) -/

/-- The branch ladder of the link pass, after the accessible name has been
computed (`inner` is the possibly img-fixed inner markup, `imgIssues` the
issues that fix emitted). -/
def anchorBranch (config : Option RepairConfig) (full aOpen inner linkName : Chars)
    (imgIssues : List AccessibilityIssue) : Chars × List AccessibilityIssue :=
  if linkName = [] then
    let textPlaceholder := jsOr (phOf config (·.linkText)) "（請補上鏈結文字）"
    let titlePlaceholder := jsOr (phOf config (·.linkEmptyTitle)) "（請補上鏈結目的）"
    let fixedOpen := addOrUpdateAttrL aOpen "title" titlePlaceholder
    let fixedFull := fixedOpen ++ textPlaceholder.data ++ "</a>".data
    let issues :=
      if ruleEnabled config "link-text" then
        [createIssue "link-text" "2.4.4" "HM1240401C" "A"
           "鏈結文字為空（已補上 placeholder，請人工確認鏈結目的）" ⟨full⟩
           (some ⟨fixedFull⟩) true true
           (some "請將 placeholder 改為能描述鏈結目的的文字；若為圖示鏈結，請用 <img alt=...> 描述其用途")]
      else []
    (fixedFull, imgIssues ++ issues)
  else
    let target := getAttrL aOpen "target"
    let isBlank : Bool := (target.map (fun t => decide (lowStr t = "_blank".data))).getD false
    let title := getAttrL aOpen "title"
    let titleEmpty : Bool := decide (title = none) || decide (jsTrim (title.getD []) = [])
    let hint := jsOr (phOf config (·.newWindowHint)) "在新視窗打開鏈結"
    if isBlank && ruleEnabled config "link-new-window" && titleEmpty &&
        !(ruleEnabled config "link-title") then
      let merged := hint.data ++ "：".data ++ linkName
      let fixedOpen := addOrUpdateAttrL aOpen "title" ⟨merged⟩
      let fixedFull := fixedOpen ++ inner ++ "</a>".data
      (fixedFull,
       imgIssues ++
         [createIssue "link-new-window" "2.4.4" "HM1240401C" "A"
            "鏈結使用 target=_blank，已補充 title 提示另開新視窗" ⟨full⟩
            (some ⟨fixedFull⟩) true false none])
    else if ruleEnabled config "link-title" && titleEmpty then
      let titleText := match phOf config (·.linkTitle) with
        | some s =>
            if s = "" then (⟨linkName⟩ : String)
            else ⟨replaceAllSub s.data.length "{text}".data linkName s.data⟩
        | none => ⟨linkName⟩
      let fixedOpen := addOrUpdateAttrL aOpen "title" titleText
      let fixedFull := fixedOpen ++ inner ++ "</a>".data
      let issue := createIssue "link-title" "2.4.4" "HM1240401C" "A"
        "鏈結缺少 title（已補上）" ⟨full⟩ (some ⟨fixedFull⟩) true false
        (some "title 應能補充鏈結目的；若鏈結文字已足夠，可視情況保留或移除 title。")
      if isBlank && ruleEnabled config "link-new-window" then
        let merged := hint.data ++ "：".data ++ titleText.data
        let mergedOpen := addOrUpdateAttrL aOpen "title" ⟨merged⟩
        (mergedOpen ++ inner ++ "</a>".data, imgIssues ++ [issue])
      else (fixedFull, imgIssues ++ [issue])
    else if isBlank && ruleEnabled config "link-new-window" && titleEmpty then
      -- mirrored from the source; unreachable given the two branches above
      let merged := hint.data ++ "：".data ++ linkName
      let fixedOpen := addOrUpdateAttrL aOpen "title" ⟨merged⟩
      let fixedFull := fixedOpen ++ inner ++ "</a>".data
      (fixedFull,
       imgIssues ++
         [createIssue "link-new-window" "2.4.4" "HM1240401C" "A"
            "鏈結使用 target=_blank，已補上 title 提示另開新視窗" ⟨full⟩
            (some ⟨fixedFull⟩) true false none])
    else if isBlank && ruleEnabled config "link-new-window" then
      let currentTitle := jsTrim (title.getD [])
      if !currentTitle.isEmpty && !(hasNewWindowWording currentTitle) then
        let merged := hint.data ++ "：".data ++ currentTitle
        let fixedOpen := addOrUpdateAttrL aOpen "title" ⟨merged⟩
        let fixedFull := fixedOpen ++ inner ++ "</a>".data
        (fixedFull,
         imgIssues ++
           [createIssue "link-new-window" "2.4.4" "HM1240401C" "A"
              "鏈結使用 target=_blank，已補充 title 提示另開新視窗" ⟨full⟩
              (some ⟨fixedFull⟩) true false none])
      else (full, imgIssues)
    else (full, imgIssues)

/-- Per-anchor rewriting of the source's link pass, on one matched
`<a ...>...</a>` span. -/
def anchorFix (config : Option RepairConfig) (full : Chars) :
    Chars × List AccessibilityIssue :=
  let aOpen := match findFirstTag ["a".data] full with
    | some x => x.2.1
    | none => "<a>".data
  let inner0 := removeFirstCI "</a>".data (removeFirstTag ["a".data] full)
  let text := (stripTags ⟨inner0⟩).data
  if ¬ hrefInOpen aOpen then (full, [])
  else
    let imgPass :=
      if ruleEnabled config "img-alt" then
        gReplace inner0.length (fun _ s => tagMatchAt ["img".data] s)
          (linkImgReplacer config) none inner0
      else (inner0, [])
    let linkName :=
      if text ≠ [] then text
      else match findFirstTag ["img".data] imgPass.1 with
        | some x =>
            let alt := jsTrim ((getAttrL x.2.1 "alt").getD [])
            if alt ≠ [] then alt else []
        | none => []
    anchorBranch config full aOpen imgPass.1 linkName imgPass.2

/-! ### Pass 4: table row headers; pass 4.5: `th` scope -/

/-- `open.replace(/^<td\b/i, "<th")` (anchored). -/
def tdToTh (tdOpen : Chars) : Chars :=
  match tdOpen with
  | '<' :: r =>
      match ciStrip "td".data r with
      | some (_, r1) =>
          if (r1.head?.map isWordChar).getD false then tdOpen
          else "<th".data ++ r1
      | none => tdOpen
  | _ => tdOpen

def trReplacer (config : Option RepairConfig) (tr : Chars) :
    Chars × List AccessibilityIssue :=
  match findFirstSpan ["td".data] "</td>".data tr with
  | none => (tr, [])
  | some x =>
      let firstTd := x.2.1
      let innerTd := removeFirstCI "</td>".data (removeFirstTag ["td".data] firstTd)
      let text := (stripTags ⟨innerTd⟩).data
      if text.isEmpty then (tr, [])
      else
        let tdOpen := match findFirstTag ["td".data] firstTd with
          | some y => y.2.1
          | none => "<td>".data
        let thOpen1 := addOrUpdateAttrL (tdToTh tdOpen) "scope" "row"
        let style := getAttrL thOpen1 "style"
        let thOpen2 := match style with
          | some s =>
              if s.isEmpty then thOpen1   -- `if (style)`: "" is falsy
              else
                let ns := normalizeInlineStyle ⟨s⟩ (basePxOf config) (removeWidthOf config)
                if ns.changed then addOrUpdateAttrL thOpen1 "style" ns.style else thOpen1
          | none => thOpen1
        let th := thOpen2 ++ innerTd ++ "</th>".data
        let fixed := replaceFirstSub tr firstTd th
        (fixed,
         [createIssue "table-row-header" "1.3.1" "HM1310101C" "A"
            "表格列標題建議使用 th（已將第一欄 td 轉為 th scope=\"row\"）" ⟨firstTd⟩
            (some ⟨th⟩) true false
            (some "若此欄位確實為列/行標題，使用 th + scope 可提升輔助科技朗讀正確性。")])

def thScopeReplacer (tag : Chars) : Chars × List AccessibilityIssue :=
  let scope := getAttrL tag "scope"
  -- `if (scope && scope.trim() !== "") return tag;`
  if (scope.map (fun s => !s.isEmpty && !(jsTrim s).isEmpty)).getD false then (tag, [])
  else
    let fixed := addOrUpdateAttrL tag "scope" "col"
    (fixed,
     [createIssue "th-scope" "1.3.1" "HM1310101C" "A"
        "<th> 缺少 scope（已補上 scope=\"col\"）" ⟨tag⟩ (some ⟨fixed⟩) true false
        (some "若此 th 為列標題請改為 scope=\"row\"；若為欄標題則 scope=\"col\"")])

/-! ### Pass 5: inline style normalization (`\bstyle\s*=\s*("..."|'...')`) -/

/-- Match the inline-style attribute pattern at the head of `l`; `prev` is
the preceding character (the `\b` before `style` needs it). -/
def styleAttrMatchAt (prev : Option Char) (l : Chars) : Option (Chars × Chars) :=
  if (prev.map isWordChar).getD false then none
  else
    match ciStrip "style".data l with
    | none => none
    | some (st, r1) =>
        let ws1 := r1.takeWhile isJsSpace
        match r1.dropWhile isJsSpace with
        | '=' :: r3 =>
            let ws2 := r3.takeWhile isJsSpace
            match r3.dropWhile isJsSpace with
            | '"' :: r5 =>
                let content := r5.takeWhile (· ≠ '"')
                (match r5.dropWhile (· ≠ '"') with
                 | '"' :: rest =>
                     some (st ++ ws1 ++ ('=' :: ws2) ++ ('"' :: content) ++ ['"'], rest)
                 | _ => none)
            | '\'' :: r5 =>
                let content := r5.takeWhile (· ≠ '\'')
                (match r5.dropWhile (· ≠ '\'') with
                 | '\'' :: rest =>
                     some (st ++ ws1 ++ ('=' :: ws2) ++ ('\'' :: content) ++ ['\''], rest)
                 | _ => none)
            | _ => none
        | _ => none

/-- The quoted content of a matched inline-style attribute text
(`g2 ?? g3` of the source). -/
def styleAttrRaw (m : Chars) : Chars :=
  let q := (m.getLast?).getD '"'
  match indexOfSub m [q] with
  | some i => (m.drop (i + 1)).dropLast
  | none => []

def cssInlineReplacer (config : Option RepairConfig) (m : Chars) :
    Chars × List AccessibilityIssue :=
  let raw := styleAttrRaw m
  let ns := normalizeInlineStyle ⟨raw⟩ (basePxOf config) (removeWidthOf config)
  if !ns.changed then (m, [])
  else
    let q : Char := if "style='".data.isPrefixOf m then '\'' else '"'
    ("style=".data ++ (q :: ns.style.data) ++ [q],
     [createIssue "css-relative-units" "1.4.4" "CS2140401C" "AA"
        "已將 inline style 中的 px/pt 單位轉為相對單位（em），並移除固定 width"
        ("style=\"" ++ ⟨raw⟩ ++ "\"") (some ("style=\"" ++ ns.style ++ "\"")) true false
        (some "建議使用 em/rem/% 等相對單位以支援文字縮放與可讀性。")])

/-! ### Pass 6: `<style>` blocks (`font-size` unit conversion only) -/

/-- Global replacement of `font-size\s*:\s*([\d.]+)\s*UNIT\s*;`
(case-insensitive) by `conv` applied to the numeric token. -/
def fontSizeReplace (fuel : Nat) (unit : Chars) (conv : Chars → Chars) : Chars → Chars
  | [] => []
  | c :: cs =>
    match fuel with
    | 0 => c :: cs
    | fuel + 1 =>
      match ciStrip "font-size".data (c :: cs) with
      | some (_, r1) =>
          (match r1.dropWhile isJsSpace with
           | ':' :: r3 =>
               let r4 := r3.dropWhile isJsSpace
               let tok := r4.takeWhile isNumCh
               if tok.isEmpty then c :: fontSizeReplace fuel unit conv cs
               else
                 let r5 := (r4.dropWhile isNumCh).dropWhile isJsSpace
                 (match ciStrip unit r5 with
                  | some (_, r6) =>
                      (match r6.dropWhile isJsSpace with
                       | ';' :: r8 => conv tok ++ fontSizeReplace fuel unit conv r8
                       | _ => c :: fontSizeReplace fuel unit conv cs)
                  | none => c :: fontSizeReplace fuel unit conv cs)
           | _ => c :: fontSizeReplace fuel unit conv cs)
      | none => c :: fontSizeReplace fuel unit conv cs

/-- The `<style>` block conversion: `font-size` in `px`, `pt`, `rem` to
`em`. -/
def styleCssConvert (config : Option RepairConfig) (css : Chars) : Chars :=
  let a := fontSizeReplace css.length "px".data
    (fun tok => ("font-size: " ++ emFromPx (jsParseFloatTok tok) (basePxOf config) ++ ";").data) css
  let b := fontSizeReplace a.length "pt".data
    (fun tok => ("font-size: " ++ emFromPt (jsParseFloatTok tok) ++ ";").data) a
  fontSizeReplace b.length "rem".data
    (fun tok => ("font-size: " ++ roundedNumToString (jsParseFloatTok tok) ++ "em;").data) b

def styleTagReplacer (config : Option RepairConfig) (m : Chars) :
    Chars × List AccessibilityIssue :=
  let openTag := match findFirstTag ["style".data] m with
    | some x => x.2.1
    | none => "<style>".data
  let afterOpen := m.drop openTag.length
  let css := afterOpen.take (afterOpen.length - "</style>".length)
  let converted := styleCssConvert config css
  let issues :=
    if converted ≠ css then
      [createIssue "css-style-tag" "1.4.4" "CS2140401C" "AA"
         "已將 <style> 內 font-size 的 px/pt/rem 單位轉為 em" "<style>…</style>"
         (some "<style>…</style>") true false none]
    else []
  ("<style>".data ++ converted ++ "</style>".data, issues)

/-! ### Pass 7: form labels -/

/-- Try `for\s*=\s*("([^"\n]+)"|'([^'\n]+)'|([^\s>]+))` at a candidate
position; returns the captured value and the remainder after the whole
match. -/
def forTryAt (l : Chars) : Option (Chars × Chars) :=
  match ciStrip "for".data l with
  | some (_, r1) =>
      (match r1.dropWhile isJsSpace with
       | '=' :: r3 =>
           let r5 := r3.dropWhile isJsSpace
           let unquoted : Option (Chars × Chars) :=
             let tok := r5.takeWhile (fun x => !(isJsSpace x) && x != '>')
             if tok.isEmpty then none
             else some (tok, r5.dropWhile (fun x => !(isJsSpace x) && x != '>'))
           (match r5 with
            | '"' :: r6 =>
                let content := r6.takeWhile (fun x => x != '"' && x != '\n')
                (match r6.dropWhile (fun x => x != '"' && x != '\n') with
                 | '"' :: rest =>
                     if content.isEmpty then unquoted else some (content, rest)
                 | _ => unquoted)
            | '\'' :: r6 =>
                let content := r6.takeWhile (fun x => x != '\'' && x != '\n')
                (match r6.dropWhile (fun x => x != '\'' && x != '\n') with
                 | '\'' :: rest =>
                     if content.isEmpty then unquoted else some (content, rest)
                 | _ => unquoted)
            | _ => unquoted)
       | _ => none)
  | none => none

/-- Candidate `\bfor` start positions (as suffixes) inside the `[^>]*` run;
the greedy `[^>]*` of the pattern prefers the rightmost workable one. -/
def forCandidates (prev : Char) : Chars → List Chars
  | [] => []
  | c :: cs =>
      (if ¬ isWordChar prev ∧ ciStartsWith "for".data (c :: cs) then [c :: cs] else []) ++
      (if c = '>' then [] else forCandidates c cs)

def firstForVal : List Chars → Option (Chars × Chars)
  | [] => none
  | c :: cs =>
      match forTryAt c with
      | some v => some v
      | none => firstForVal cs

/-- `<label\b[^>]*\bfor\s*=\s*(...)` at the head of `l`; the greedy `[^>]*`
backtracks from the rightmost `\bfor` candidate. -/
def labelForMatchAt (l : Chars) : Option (Chars × Chars) :=
  match l with
  | '<' :: r =>
      match ciStrip "label".data r with
      | some (nm, r1) =>
          if (r1.head?.map isWordChar).getD false then none
          else firstForVal ((forCandidates (nm.getLast?.getD 'l') r1).reverse)
      | none => none
  | _ => none

/-- The `labelRe.exec` loop collecting trimmed non-empty `for` targets. -/
def collectLabelFor (fuel : Nat) : Chars → List String
  | [] => []
  | c :: cs =>
    match fuel with
    | 0 => []
    | fuel + 1 =>
      match labelForMatchAt (c :: cs) with
      | some (v, rest) =>
          let tv := jsTrim v
          (if tv.isEmpty then [] else [(⟨tv⟩ : String)]) ++ collectLabelFor fuel rest
      | none => collectLabelFor fuel cs

def formLabelReplacer (labelSet : List String) (tag : Chars) :
    Chars × List AccessibilityIssue :=
  let typeAttr : String := ⟨lowStr ((getAttrL tag "type").getD [])⟩
  if typeAttr = "hidden" then (tag, [])
  else
    let ariaLabel := getAttrL tag "aria-label"
    let ariaLabelledby := getAttrL tag "aria-labelledby"
    let id := jsTrim ((getAttrL tag "id").getD [])
    let truthyTrim := fun (o : Option Chars) => (o.map (fun s => !(jsTrim s).isEmpty)).getD false
    let hasLabel := truthyTrim ariaLabel || truthyTrim ariaLabelledby ||
      (!id.isEmpty && labelSet.contains ⟨id⟩)
    if hasLabel then (tag, [])
    else
      (tag,
       [createIssue "form-label" "1.3.1" "HM1330201C" "A"
          "表單欄位缺少可被輔助科技辨識的標籤（label/aria-label）" ⟨tag⟩ none false true
          (some (if !id.isEmpty then
              "請確認是否有 <label for=\"" ++ ⟨id⟩ ++ "\">...；或補 aria-label/aria-labelledby（注意：placeholder 不是 label）"
            else
              "建議補 id 並搭配 <label for=...>，或使用 aria-label/aria-labelledby（注意：placeholder 不是 label）"))])

/-! ### Pass 8: skip-link detection (report only) -/

/-- `/\<(N1|N2)\b/i.test(s)` — a tag-open prefix with a word boundary, no
closing `>` required. -/
def existsTagHead (names : List Chars) : Chars → Bool
  | [] => false
  | c :: cs =>
      (if c = '<' then
        names.any (fun name =>
          match ciStrip name cs with
          | some (_, r1) => !((r1.head?.map isWordChar).getD false)
          | none => false)
      else false) || existsTagHead names cs

def skipQuotedTargets : List Chars :=
  ["\"#main\"", "'#main'", "\"#content\"", "'#content'",
   "\"#main-content\"", "'#main-content'"].map String.data

def skipLinkTexts : List Chars :=
  ["跳到主要內容", "跳至主要內容", "Skip to main", "skip to main", "skip"].map String.data

/-- `[^>]*>\s*(TEXT)\s*<\/a>` after a matched href value. -/
def skipAfterValue (r : Chars) : Bool :=
  match afterFirstCh '>' r with
  | none => false
  | some r2 =>
      let r3 := r2.dropWhile isJsSpace
      skipLinkTexts.any (fun t =>
        match ciStrip t r3 with
        | some (_, r4) => ciStartsWith "</a>".data (r4.dropWhile isJsSpace)
        | none => false)

/-- The href value group of the first skip-link pattern, with its trailing
`\b`: quoted alternatives (whose boundary needs a following word character),
then the greedy bare token, backtracked until the boundary holds. -/
def skipValueThen (r5 : Chars) : Bool :=
  let quoted := skipQuotedTargets.any (fun q =>
    match ciStrip q r5 with
    | some (_, r6) => ((r6.head?.map isWordChar).getD false) && skipAfterValue r6
    | none => false)
  let tok := r5.takeWhile (fun x => !(isJsSpace x) && x != '>')
  let rec tryLen : Nat → Bool
    | 0 => false
    | k + 1 =>
        let lastCh := tok.getD k ' '
        let next := (r5.drop (k + 1)).head?
        let boundary := isWordChar lastCh != ((next.map isWordChar).getD false)
        (boundary && skipAfterValue (r5.drop (k + 1))) || tryLen k
  quoted || (!tok.isEmpty && tryLen tok.length)

def skipHrefSearch (prev : Char) : Chars → Bool
  | [] => false
  | c :: cs =>
      (if ¬ isWordChar prev then
        match ciStrip "href".data (c :: cs) with
        | some (_, r1) =>
            (match r1.dropWhile isJsSpace with
             | '=' :: r3 => skipValueThen (r3.dropWhile isJsSpace)
             | _ => false)
        | none => false
      else false) || (if c = '>' then false else skipHrefSearch c cs)

/-- The first skip-link test of the source (anchor with a recognizable
target whose text is a skip phrase). -/
def hasSkipAnchorText : Chars → Bool
  | [] => false
  | c :: cs =>
      (if c = '<' then
        match ciStrip "a".data cs with
        | some (_, r1) =>
            if (r1.head?.map isWordChar).getD false then false
            else skipHrefSearch 'a' r1
        | none => false
      else false) || hasSkipAnchorText cs

/-- The second skip-link test: `<a\b[^>]*\bhref\s*=\s*` followed by one of
the quoted `#main`/`#content`/`#main-content` literals. -/
def skipHrefQuotedSearch (prev : Char) : Chars → Bool
  | [] => false
  | c :: cs =>
      (if ¬ isWordChar prev then
        match ciStrip "href".data (c :: cs) with
        | some (_, r1) =>
            (match r1.dropWhile isJsSpace with
             | '=' :: r3 =>
                 let r5 := r3.dropWhile isJsSpace
                 skipQuotedTargets.any (fun q => ciStartsWith q r5)
             | _ => false)
        | none => false
      else false) || (if c = '>' then false else skipHrefQuotedSearch c cs)

def hasSkipAnchorQuoted : Chars → Bool
  | [] => false
  | c :: cs =>
      (if c = '<' then
        match ciStrip "a".data cs with
        | some (_, r1) =>
            if (r1.head?.map isWordChar).getD false then false
            else skipHrefQuotedSearch 'a' r1
        | none => false
      else false) || hasSkipAnchorQuoted cs

def skipLinkIssues (config : Option RepairConfig) (repaired : Chars) :
    List AccessibilityIssue :=
  if ruleEnabled config "skip-link" then
    let hasNavOrHeader := existsTagHead ["nav".data, "header".data] repaired
    let hasMain := existsTagHead ["main".data] repaired
    let hasSkip := hasSkipAnchorText repaired || hasSkipAnchorQuoted repaired
    if (hasNavOrHeader || hasMain) && !hasSkip then
      [createIssue "skip-link" "2.4.1" "HM1240101C" "A"
         "建議提供跳至主要內容（Skip Link），以利鍵盤/輔助科技快速略過導覽" "(document)"
         none false true
         (some "建議在頁面最前方加入 <a href=\"#main\">跳到主要內容</a> 並確保 main 區塊具對應 id。")]
    else []
  else []

/-! ### Pass 9: color-contrast advisory -/

/-- `\bcolor\s*:\s*[^;Q]+` inside a quoted style value, `q` being the quote
character (the class excludes `;` and the quote; every whitespace character
is itself in the class, so the condition reduces to: some `color`
declaration whose first character after the colon exists and is neither `;`
nor the quote). -/
def hasColorDecl (q : Char) : Char → Chars → Bool
  | _, [] => false
  | prev, c :: cs =>
      (if ¬ isWordChar prev then
        match ciStrip "color".data (c :: cs) with
        | some (_, r1) =>
            (match r1.dropWhile isJsSpace with
             | ':' :: r3 =>
                 (match r3.head? with
                  | some x => x != ';' && x != q
                  | none => false)
             | _ => false)
        | none => false
      else false) || hasColorDecl q c cs

/-- `style\s*=\s*("[^"]*\bcolor\s*:\s*[^;\"]+[^"]*"|'...')` at the head of
`l` (no word boundary before `style` in this pattern). -/
def colorStyleMatchAt (l : Chars) : Option (Chars × Chars) :=
  match ciStrip "style".data l with
  | none => none
  | some (st, r1) =>
      let ws1 := r1.takeWhile isJsSpace
      match r1.dropWhile isJsSpace with
      | '=' :: r3 =>
          let ws2 := r3.takeWhile isJsSpace
          (match r3.dropWhile isJsSpace with
           | '"' :: r5 =>
               let content := r5.takeWhile (· ≠ '"')
               (match r5.dropWhile (· ≠ '"') with
                | '"' :: rest =>
                    if hasColorDecl '"' '"' content then
                      some (st ++ ws1 ++ ('=' :: ws2) ++ ('"' :: content) ++ ['"'], rest)
                    else none
                | _ => none)
           | '\'' :: r5 =>
               let content := r5.takeWhile (· ≠ '\'')
               (match r5.dropWhile (· ≠ '\'') with
                | '\'' :: rest =>
                    if hasColorDecl '\'' '\'' content then
                      some (st ++ ws1 ++ ('=' :: ws2) ++ ('\'' :: content) ++ ['\''], rest)
                    else none
                | _ => none)
           | _ => none)
      | _ => none

/-- `/background-color\s*:/i.test(styleAttr)`. -/
def hasBgColorDecl : Chars → Bool
  | [] => false
  | c :: cs =>
      (match ciStrip "background-color".data (c :: cs) with
       | some (_, r1) =>
           (match r1.dropWhile isJsSpace with
            | ':' :: _ => true
            | _ => false)
       | none => false) || hasBgColorDecl cs

def mkColorIssue (m : Chars) : AccessibilityIssue :=
  createIssue "color-contrast" "1.4.3" "CS2140301C" "AA"
    "偵測到文字顏色設定，需人工確認與背景之對比（Freego AA 常見檢查）" ⟨m⟩ none false true
    (some "請用 Freego/對比檢測工具確認一般文字對比 >= 4.5:1（大字 >= 3:1），必要時調整 color/background-color。")

/-- The `colorStyleRe.exec` loop: skip matches that set `background-color`,
report the rest, break after the fifth report. -/
def colorScan (fuel : Nat) (warned : Nat) : Chars → List AccessibilityIssue
  | [] => []
  | c :: cs =>
    match fuel with
    | 0 => []
    | fuel + 1 =>
      match colorStyleMatchAt (c :: cs) with
      | some (m, rest) =>
          if hasBgColorDecl m then colorScan fuel warned rest
          else if warned + 1 > 5 then []
          else mkColorIssue m :: colorScan fuel (warned + 1) rest
      | none => colorScan fuel warned cs

def colorContrastIssues (config : Option RepairConfig) (repaired : Chars) :
    List AccessibilityIssue :=
  if ruleEnabled config "color-contrast" then colorScan repaired.length 0 repaired
  else []

/-! ### Pass 10: fake-button advisory -/

/-- The `("..."|'...'|[^\s>]+)` value group of the fake-button pattern:
returns the remainder after the value (quoted values may contain `>`). -/
def fakeValRest (r4 : Chars) : Option Chars :=
  let unquoted : Option Chars :=
    let tok := r4.takeWhile (fun x => !(isJsSpace x) && x != '>')
    if tok.isEmpty then none else some (r4.dropWhile (fun x => !(isJsSpace x) && x != '>'))
  match r4 with
  | '"' :: r5 =>
      (match r5.dropWhile (· ≠ '"') with
       | '"' :: rest => some rest
       | _ => unquoted)
  | '\'' :: r5 =>
      (match r5.dropWhile (· ≠ '\'') with
       | '\'' :: rest => some rest
       | _ => unquoted)
  | _ => unquoted

/-- Try `onclick\s*=\s*(VAL)[^>]*>` at a candidate position; returns the
remainder after the closing `>`. -/
def onclickTryAt (l : Chars) : Option Chars :=
  match ciStrip "onclick".data l with
  | some (_, r1) =>
      (match r1.dropWhile isJsSpace with
       | '=' :: r3 =>
           (match fakeValRest (r3.dropWhile isJsSpace) with
            | some afterVal => afterFirstCh '>' afterVal
            | none => none)
       | _ => none)
  | none => none

/-- Candidate `\bonclick` start positions (as suffixes) inside the `[^>]*`
run; the greedy `[^>]*` of the pattern prefers the rightmost workable one. -/
def onclickCandidates (prev : Char) : Chars → List Chars
  | [] => []
  | c :: cs =>
      (if ¬ isWordChar prev ∧ ciStartsWith "onclick".data (c :: cs) then [c :: cs] else []) ++
      (if c = '>' then [] else onclickCandidates c cs)

def firstOnclickRest : List Chars → Option Chars
  | [] => none
  | c :: cs =>
      match onclickTryAt c with
      | some r => some r
      | none => firstOnclickRest cs

/-- `<(div|span)\b[^>]*\bonclick\s*=\s*("[^"]*"|'[^']*'|[^\s>]+)[^>]*>` at
the head of `l`: (matched tag text, rest). -/
def fakeBtnMatchAt (l : Chars) : Option (Chars × Chars) :=
  match l with
  | '<' :: l1 =>
      let tryName := fun (name : Chars) =>
        match ciStrip name l1 with
        | some (nm, r1) =>
            if (r1.head?.map isWordChar).getD false then none
            else firstOnclickRest ((onclickCandidates (nm.getLast?.getD 'v') r1).reverse)
        | none => none
      (match tryName "div".data with
       | some rest => some (l.take (l.length - rest.length), rest)
       | none =>
          match tryName "span".data with
          | some rest => some (l.take (l.length - rest.length), rest)
          | none => none)
  | _ => none

/-- `/\brole\s*=\s*("button"|'button')/i.test(tag)`. -/
def hasRoleBtn (prev : Option Char) : Chars → Bool
  | [] => false
  | c :: cs =>
      (if ¬ ((prev.map isWordChar).getD false) then
        match ciStrip "role".data (c :: cs) with
        | some (_, r1) =>
            (match r1.dropWhile isJsSpace with
             | '=' :: r3 =>
                 let r5 := r3.dropWhile isJsSpace
                 ciStartsWith "\"button\"".data r5 || ciStartsWith "'button'".data r5
             | _ => false)
        | none => false
      else false) || hasRoleBtn (some c) cs

/-- `/\btabindex\s*=\s*("0"|'0'|0)\b/i.test(tag)` — note the trailing `\b`:
a quoted `"0"` only passes when a word character follows the closing quote,
so in practice only an unquoted `0` satisfies this test. -/
def hasTab0 (prev : Option Char) : Chars → Bool
  | [] => false
  | c :: cs =>
      (if ¬ ((prev.map isWordChar).getD false) then
        match ciStrip "tabindex".data (c :: cs) with
        | some (_, r1) =>
            (match r1.dropWhile isJsSpace with
             | '=' :: r3 =>
                 let r5 := r3.dropWhile isJsSpace
                 (match r5 with
                  | '"' :: '0' :: '"' :: r6 => (r6.head?.map isWordChar).getD false
                  | _ => false) ||
                 (match r5 with
                  | '\'' :: '0' :: '\'' :: r6 => (r6.head?.map isWordChar).getD false
                  | _ => false) ||
                 (match r5 with
                  | '0' :: r6 => !((r6.head?.map isWordChar).getD false)
                  | _ => false)
             | _ => false)
        | none => false
      else false) || hasTab0 (some c) cs

/-- The skip condition of the fake-button loop: `role="button"` **and**
`tabindex=0` both present. -/
def fakeBtnSkip (tag : Chars) : Bool := hasRoleBtn none tag && hasTab0 none tag

def mkFakeIssue (tag : Chars) : AccessibilityIssue :=
  createIssue "fake-button" "2.1.1" "HM2110101C" "A"
    "偵測到非語意互動元件（div/span + onclick），可能無法鍵盤操作" ⟨tag⟩ none false true
    (some "建議改用 <button>；或補 role=\"button\"、tabindex=\"0\" 並加入 keydown/keyup 以支援 Enter/Space。")

/-- The `fakeBtnRe.exec` loop with its counter: skip fully-marked elements,
report the rest, break when the count exceeds 10. -/
def fakeBtnScan (fuel : Nat) (count : Nat) : Chars → List AccessibilityIssue
  | [] => []
  | c :: cs =>
    match fuel with
    | 0 => []
    | fuel + 1 =>
      match fakeBtnMatchAt (c :: cs) with
      | some (tag, rest) =>
          if fakeBtnSkip tag then fakeBtnScan fuel count rest
          else if count + 1 > 10 then []
          else mkFakeIssue tag :: fakeBtnScan fuel (count + 1) rest
      | none => fakeBtnScan fuel count cs

/-- All fake-button matches, in scan order, without the cap (used to state
what the capped loop emits). -/
def fakeBtnMatches (fuel : Nat) : Chars → List Chars
  | [] => []
  | c :: cs =>
    match fuel with
    | 0 => []
    | fuel + 1 =>
      match fakeBtnMatchAt (c :: cs) with
      | some (tag, rest) => tag :: fakeBtnMatches fuel rest
      | none => fakeBtnMatches fuel cs

/-- The fake-button pass on a repaired text. -/
def fakeButtonIssues (repaired : Chars) : List AccessibilityIssue :=
  fakeBtnScan repaired.length 0 repaired

/-! ### The engine: pass pipeline, location backfill, result assembly -/

def frameTitlePass (config : Option RepairConfig) (l : Chars) :
    Chars × List AccessibilityIssue :=
  if ruleEnabled config "frame-title" then
    gReplace l.length (fun _ s => tagMatchAt ["iframe".data, "frame".data] s)
      (frameReplacer config) none l
  else (l, [])

def imgAltPass (config : Option RepairConfig) (l : Chars) :
    Chars × List AccessibilityIssue :=
  if ruleEnabled config "img-alt" then
    gReplace l.length (fun _ s => tagMatchAt ["img".data] s) (imgReplacer config) none l
  else (l, [])

/-- The link pass is not gated by `ruleEnabled` in the source. -/
def anchorPass (config : Option RepairConfig) (l : Chars) :
    Chars × List AccessibilityIssue :=
  gReplace l.length (fun _ s => spanMatchAt ["a".data] "</a>".data s)
    (anchorFix config) none l

def tableRowPass (config : Option RepairConfig) (l : Chars) :
    Chars × List AccessibilityIssue :=
  if ruleEnabled config "table-row-header" then
    gReplace l.length (fun _ s => spanMatchAt ["tr".data] "</tr>".data s)
      (trReplacer config) none l
  else (l, [])

def thScopePass (config : Option RepairConfig) (l : Chars) :
    Chars × List AccessibilityIssue :=
  if ruleEnabled config "th-scope" then
    gReplace l.length (fun _ s => tagMatchAt ["th".data] s)
      (fun t => thScopeReplacer t) none l
  else (l, [])

def cssInlinePass (config : Option RepairConfig) (l : Chars) :
    Chars × List AccessibilityIssue :=
  if ruleEnabled config "css-relative-units" then
    gReplace l.length styleAttrMatchAt (cssInlineReplacer config) none l
  else (l, [])

def styleTagPass (config : Option RepairConfig) (l : Chars) :
    Chars × List AccessibilityIssue :=
  if ruleEnabled config "css-style-tag" then
    gReplace l.length (fun _ s => spanMatchAt ["style".data] "</style>".data s)
      (styleTagReplacer config) none l
  else (l, [])

def formLabelPass (config : Option RepairConfig) (l : Chars) :
    Chars × List AccessibilityIssue :=
  if ruleEnabled config "form-label" then
    gReplace l.length
      (fun _ s => tagMatchAt ["input".data, "select".data, "textarea".data] s)
      (formLabelReplacer (collectLabelFor l.length l)) none l
  else (l, [])

def fakeButtonPass (config : Option RepairConfig) (l : Chars) :
    List AccessibilityIssue :=
  if ruleEnabled config "fake-button" then fakeButtonIssues l else []

def runPasses (html : String) (config : Option RepairConfig) :
    Chars × List AccessibilityIssue :=
  let p1 := frameTitlePass config html.data
  let p2 := imgAltPass config p1.1
  let p3 := anchorPass config p2.1
  let p4 := tableRowPass config p3.1
  let p45 := thScopePass config p4.1
  let p5 := cssInlinePass config p45.1
  let p6 := styleTagPass config p5.1
  let p7 := formLabelPass config p6.1
  (p7.1,
   p1.2 ++ p2.2 ++ p3.2 ++ p4.2 ++ p45.2 ++ p5.2 ++ p6.2 ++ p7.2 ++
     skipLinkIssues config p7.1 ++ colorContrastIssues config p7.1 ++
     fakeButtonPass config p7.1)

/-- `computeLineCol` of the source (1-based; index 0 maps to (1,1)). -/
def computeLineCol (s : Chars) (idx : Nat) : Nat × Nat :=
  if idx = 0 then (1, 1)
  else
    let before := s.take idx
    (before.count '\n' + 1, (before.reverse.takeWhile (· ≠ '\n')).length + 1)

/-- The location backfill applied to one issue: find the first occurrence of
the recorded original snippet in the pristine input; the empty snippet and
the `"(document)"` sentinel are never searched. -/
def locFill (html : Chars) (issue : AccessibilityIssue) : AccessibilityIssue :=
  if issue.startOffset ≠ 0 ∨ issue.line ≠ 0 then issue
  else if issue.originalSnippet = "" ∨ issue.originalSnippet = "(document)" then issue
  else
    match indexOfSub html issue.originalSnippet.data with
    | none => issue
    | some idx =>
        { issue with startOffset := idx,
                     endOffset := idx + issue.originalSnippet.data.length,
                     line := (computeLineCol html idx).1,
                     column := (computeLineCol html idx).2 }

/-- `repairHtml` of the source. -/
def repairHtml (html : String) (config : Option RepairConfig) : RepairResult :=
  let p := runPasses html config
  let issues := p.2.map (locFill html.data)
  { originalHtml := html
    repairedHtml := ⟨p.1⟩
    issues := issues
    summary :=
      { totalIssues := issues.length
        autoFixed := (issues.filter (·.autoFixed)).length
        needsManualReview := (issues.filter (·.needsManualReview)).length } }

/-! ### Splitting lemmas for the attribute matcher -/

theorem ciStrip_append {pat l m r : Chars} (h : ciStrip pat l = some (m, r)) :
    l = m ++ r := by
  induction pat generalizing l m r with
  | nil =>
      simp only [ciStrip, Option.some.injEq, Prod.mk.injEq] at h
      simp [← h.1, ← h.2]
  | cons p ps ih =>
      cases l with
      | nil => simp [ciStrip] at h
      | cons c cs =>
          simp only [ciStrip] at h
          split at h
          · cases hr : ciStrip ps cs with
            | none => rw [hr] at h; exact Option.noConfusion h
            | some pr =>
                rw [hr] at h
                simp only [Option.map_some', Option.some.injEq, Prod.mk.injEq] at h
                obtain ⟨h1, h2⟩ := h
                have := ih (l := cs) (m := pr.1) (r := pr.2) (by rw [hr])
                subst h2
                simp [← h1, this]
          · simp at h

theorem dquotVal_append {l raw gv rest : Chars} (h : dquotVal l = some (raw, gv, rest)) :
    l = raw ++ rest := by
  unfold dquotVal at h
  split at h
  · rename_i r
    split at h
    · rename_i rr heq
      simp only [Option.some.injEq, Prod.mk.injEq] at h
      obtain ⟨h1, -, h3⟩ := h
      have hsplit := List.takeWhile_append_dropWhile (p := fun x => decide (x ≠ '"')) (l := r)
      rw [heq] at hsplit
      rw [← h1, ← h3]
      simp only [List.cons_append, List.append_assoc, List.singleton_append, List.nil_append]
      rw [hsplit]
    · simp at h
  · simp at h

theorem squotVal_append {l raw gv rest : Chars} (h : squotVal l = some (raw, gv, rest)) :
    l = raw ++ rest := by
  unfold squotVal at h
  split at h
  · rename_i r
    split at h
    · rename_i rr heq
      simp only [Option.some.injEq, Prod.mk.injEq] at h
      obtain ⟨h1, -, h3⟩ := h
      have hsplit := List.takeWhile_append_dropWhile (p := fun x => decide (x ≠ '\'')) (l := r)
      rw [heq] at hsplit
      rw [← h1, ← h3]
      simp only [List.cons_append, List.append_assoc, List.singleton_append, List.nil_append]
      rw [hsplit]
    · simp at h
  · simp at h

theorem unquotVal_append {l raw gv rest : Chars} (h : unquotVal l = some (raw, gv, rest)) :
    l = raw ++ rest := by
  simp only [unquotVal] at h
  split at h
  · simp at h
  · simp only [Option.some.injEq, Prod.mk.injEq] at h
    obtain ⟨h1, -, h3⟩ := h
    rw [← h1, ← h3]
    exact (List.takeWhile_append_dropWhile ..).symm

theorem attrValAlt_append {l raw gv rest : Chars}
    (h : attrValAlt l = some (raw, gv, rest)) : l = raw ++ rest := by
  unfold attrValAlt at h
  cases hd : dquotVal l with
  | some v => rw [hd] at h; cases h; exact dquotVal_append hd
  | none =>
      rw [hd] at h
      cases hs : squotVal l with
      | some v => rw [hs] at h; cases h; exact squotVal_append hs
      | none => rw [hs] at h; exact unquotVal_append h

theorem attrMatchAt_append {name l m gv rest : Chars}
    (h : attrMatchAt name l = some (m, gv, rest)) : l = m ++ rest := by
  unfold attrMatchAt at h
  split at h
  · exact Option.noConfusion h
  · rename_i s l1
    split at h
    · split at h
      · exact Option.noConfusion h
      · rename_i nm r1 hstrip
        split at h
        · rename_i r3 heq2
          split at h
          · rename_i raw gv' rest' heq3
            simp only [Option.some.injEq, Prod.mk.injEq] at h
            obtain ⟨h1, -, h3⟩ := h
            have e1 : l1 = nm ++ r1 := ciStrip_append hstrip
            have e2 : r1.takeWhile isJsSpace ++ ('=' :: r3) = r1 := by
              have := List.takeWhile_append_dropWhile (p := isJsSpace) (l := r1)
              rw [heq2] at this; exact this
            have e3 : r3.takeWhile isJsSpace ++ r3.dropWhile isJsSpace = r3 :=
              List.takeWhile_append_dropWhile ..
            have e4 : r3.dropWhile isJsSpace = raw ++ rest' := attrValAlt_append heq3
            rw [← h1, ← h3]
            conv_lhs => rw [e1, ← e2, ← e3, e4]
            simp [List.append_assoc]
          · exact Option.noConfusion h
        · exact Option.noConfusion h
    · exact Option.noConfusion h

set_option maxHeartbeats 1000000 in
theorem findAttr_append {name l pre m gv rest : Chars}
    (h : findAttr name l = some (pre, m, gv, rest)) : l = pre ++ m ++ rest := by
  induction l generalizing pre m gv rest with
  | nil => simp [findAttr] at h
  | cons c cs ih =>
      unfold findAttr at h
      cases hm : attrMatchAt name (c :: cs) with
      | some x =>
          rw [hm] at h
          obtain ⟨mm, mgv, mrest⟩ := x
          simp only [Option.some.injEq, Prod.mk.injEq] at h
          obtain ⟨h1, h2, h3, h4⟩ := h
          rw [← h1, ← h2, ← h4]
          simpa using attrMatchAt_append hm
      | none =>
          rw [hm] at h
          cases hf : findAttr name cs with
          | none => rw [hf] at h; exact Option.noConfusion h
          | some y =>
              rw [hf] at h
              obtain ⟨ypre, ym, ygv, yrest⟩ := y
              simp only [Option.map_some', Option.some.injEq, Prod.mk.injEq] at h
              obtain ⟨h1, h2, h3, h4⟩ := h
              rw [← h1, ← h2, ← h4]
              simpa using ih hf

theorem strMkData (s : String) : (⟨s.data⟩ : String) = s := by
  cases s; rfl

/-- The value the `addOrUpdateAttr` callback inspects at the **first** match
of the attribute pattern: everything after the first `=` of the matched
text, trimmed, with edge quotes stripped. -/
def attrRawValue (tag attrName : String) : Option String :=
  (findAttr attrName.data tag.data).map
    (fun x => (⟨stripEdgeQuotes (jsTrim ((afterFirstCh '=' x.2.1).getD []))⟩ : String))

/-- Claim C6 (amended): `addOrUpdateAttr` returns the tag unchanged whenever
the **first** match of the attribute pattern carries a value that is still
non-blank after trimming and stripping edge quotes; equivalently, it writes
only when the pattern does not match or that first value is blank.  (The
claim as frozen — "present with a non-empty value implies unchanged" — fails
when the first occurrence of a duplicated attribute is empty; see the
counterexample.) -/
theorem addOrUpdateAttr_keeps_first_nonempty (tag attrName attrValue : String)
    (h : ∃ v, attrRawValue tag attrName = some v ∧ jsTrim v.data ≠ []) :
    addOrUpdateAttr tag attrName attrValue = tag := by
  obtain ⟨v, hv, hne⟩ := h
  unfold attrRawValue at hv
  unfold addOrUpdateAttr
  cases hf : findAttr attrName.data tag.data with
  | none => rw [hf] at hv; exact Option.noConfusion hv
  | some x =>
      obtain ⟨pre, m, gv, rest⟩ := x
      rw [hf] at hv
      simp only [Option.map_some', Option.some.injEq] at hv
      have hdata : v.data = stripEdgeQuotes (jsTrim ((afterFirstCh '=' m).getD [])) := by
        rw [← hv]
      dsimp only
      rw [if_neg (by rw [← hdata]; exact hne)]
      rw [← findAttr_append hf]

/-- Claim C6 (witness): a concrete application of the amended theorem. -/
theorem addOrUpdateAttr_keeps_first_nonempty_witness :
    attrRawValue "<a title=\"x\">" "title" = some "x" ∧
    addOrUpdateAttr "<a title=\"x\">" "title" "y" = "<a title=\"x\">" :=
  ⟨by decide,
   addOrUpdateAttr_keeps_first_nonempty "<a title=\"x\">" "title" "y"
     ⟨"x", by decide, by decide⟩⟩

/-- Claim C6 (counterexample): the tag `<a title="" title="x">` carries the
attribute `title` with the non-empty, non-whitespace value `x`, yet
`addOrUpdateAttr` rewrites it (the regex finds the first, empty occurrence),
refuting the claim as frozen. -/
theorem addOrUpdateAttr_overwrites_duplicate_counterexample :
    containsSub "<a title=\"\" title=\"x\">".data " title=\"x\"".data = true ∧
    getAttr "<a title=\"\" title=\"x\">" "title" = some "" ∧
    addOrUpdateAttr "<a title=\"\" title=\"x\">" "title" "y" =
      "<a title=\"y\" title=\"x\">" ∧
    addOrUpdateAttr "<a title=\"\" title=\"x\">" "title" "y" ≠
      "<a title=\"\" title=\"x\">" := by
  refine ⟨by decide, by decide, by decide, by decide⟩

/-! ### Padding compaction lemmas (claim C3) -/

def padPresentVals (conv : List (String × String)) : List String :=
  padKeys.filterMap (padPresentVal conv)

theorem isPadDash_padding : isPadDash "padding" = false := by decide

theorem padAux_true (v0 : String) (l : List (String × String)) :
    padCompressAux v0 true l = l.filter (fun d => !(isPadDash d.1)) := by
  induction l with
  | nil => rfl
  | cons d ds ih =>
      unfold padCompressAux
      by_cases h : isPadDash d.1
      · simp [h, ih]
      · simp only [Bool.not_eq_true] at h
        simp [h, ih]

theorem padAux_filterPad (v0 : String) (b : Bool) (l : List (String × String)) :
    (padCompressAux v0 b l).filter (fun d => isPadDash d.1) = [] := by
  induction l generalizing b with
  | nil => cases b <;> rfl
  | cons d ds ih =>
      unfold padCompressAux
      by_cases h : isPadDash d.1
      · cases b
        · simp [h, List.filter, isPadDash_padding, ih]
        · simp [h, ih]
      · simp only [Bool.not_eq_true] at h
        simp [h, List.filter, ih]

theorem padAux_false_split (v0 : String) (a b : List (String × String))
    (d : String × String) (ha : ∀ e ∈ a, isPadDash e.1 = false)
    (hd : isPadDash d.1 = true) :
    padCompressAux v0 false (a ++ d :: b) =
      a ++ ("padding", v0) :: b.filter (fun e => !(isPadDash e.1)) := by
  induction a with
  | nil =>
      simp only [List.nil_append]
      unfold padCompressAux
      simp [hd, padAux_true]
  | cons e a' ih =>
      have he := ha e (by simp)
      simp only [List.cons_append]
      unfold padCompressAux
      simp only [he, Bool.false_eq_true, if_false, List.cons.injEq, true_and]
      exact ih (fun x hx => ha x (by simp [hx]))

theorem allEq_match_headD (pv : List String) :
    (match pv with | [] => true | v :: _ => pv.all (· = v)) =
      pv.all (· = pv.headD "") := by
  cases pv <;> rfl

/-- The `style` component of `normalizeInlineStyle`, rephrased through the
present-padding values of the converted declaration list. -/
theorem normalizeInlineStyle_style_eq (style : String) (bp : ℚ) (rw : Bool) :
    (normalizeInlineStyle style bp rw).style =
      (if 3 ≤ (padPresentVals (convertedDecls style bp rw)).length ∧
          (padPresentVals (convertedDecls style bp rw)).all
            (· = (padPresentVals (convertedDecls style bp rw)).headD "") = true
       then
         declsJoin (padCompress ((padPresentVals (convertedDecls style bp rw)).headD "")
           (convertedDecls style bp rw))
       else declsJoin (convertedDecls style bp rw)) := by
  by_cases hs : style = ""
  · subst hs
    have hp : parseDecls "" = [] := by decide
    simp only [normalizeInlineStyle, convertedDecls, hp, padPresentVals, padLookup,
      padKeys, if_pos rfl, List.map_nil, List.filterMap_nil]
    decide
  · simp only [normalizeInlineStyle, if_neg hs, padPresentVals, convertedDecls]
    rw [allEq_match_headD]
    split
    · rfl
    · rfl

/-- Claim C3 (amended): `normalizeInlineStyle` collapses the individual
padding declarations into a single `padding` declaration (inserted at the
position of the first `padding-*` declaration, all `padding-*` declarations
dropped) if and only if **at least three** of
`padding-top/right/bottom/left` are present after conversion with a
**non-empty** converted value (the code's `filter(Boolean)` drops empty
value strings) and those converted value **strings** are equal; otherwise
the converted declarations are joined unchanged, individual `padding-*`
declarations preserved.  (The claim as frozen requires all four and numeric
equality; the code's threshold is `>= 3` and its comparison is string
equality — see the counterexample.) -/
theorem normalizeInlineStyle_padding_compaction (style : String) (bp : ℚ) (rw : Bool) :
    (3 ≤ (padPresentVals (convertedDecls style bp rw)).length →
      (padPresentVals (convertedDecls style bp rw)).all
          (· = (padPresentVals (convertedDecls style bp rw)).headD "") = true →
      (normalizeInlineStyle style bp rw).style =
        declsJoin (padCompress ((padPresentVals (convertedDecls style bp rw)).headD "")
          (convertedDecls style bp rw))) ∧
    (¬ (3 ≤ (padPresentVals (convertedDecls style bp rw)).length ∧
          (padPresentVals (convertedDecls style bp rw)).all
            (· = (padPresentVals (convertedDecls style bp rw)).headD "") = true) →
      (normalizeInlineStyle style bp rw).style =
        declsJoin (convertedDecls style bp rw)) ∧
    ((padCompress ((padPresentVals (convertedDecls style bp rw)).headD "")
        (convertedDecls style bp rw)).filter (fun d => isPadDash d.1) = []) ∧
    (∀ a d b, convertedDecls style bp rw = a ++ d :: b →
      (∀ e ∈ a, isPadDash e.1 = false) → isPadDash d.1 = true →
      padCompress ((padPresentVals (convertedDecls style bp rw)).headD "")
          (convertedDecls style bp rw) =
        a ++ ("padding", (padPresentVals (convertedDecls style bp rw)).headD "") ::
          b.filter (fun e => !(isPadDash e.1))) := by
  have key := normalizeInlineStyle_style_eq style bp rw
  refine ⟨?_, ?_, ?_, ?_⟩
  · intro h3 hall
    rw [key, if_pos ⟨h3, hall⟩]
  · intro hn
    rw [key, if_neg hn]
  · exact padAux_filterPad _ false _
  · intro a d b hconv ha hd
    unfold padCompress
    rw [hconv]
    exact padAux_false_split _ a b d ha hd

/-- Claim C3 (counterexample): with only three equal `padding-*`
declarations present the code still compacts (the claim says fewer than four
means no compaction); with all four present but the numerically equal value
strings `1em` and `1.0em` it does not compact (the claim's equality is
numeric); and a fourth declaration with an empty value neither counts toward
the threshold nor blocks compaction (`filter(Boolean)`), yet is dropped by
the compaction. -/
theorem normalizeInlineStyle_padding_counterexample :
    normalizeInlineStyle "padding-top:1em;padding-right:1em;padding-bottom:1em" 16 true =
      { style := "padding:1em", changed := true } ∧
    normalizeInlineStyle
        "padding-top:1em;padding-right:1.0em;padding-bottom:1em;padding-left:1em" 16 true =
      { style :=
          "padding-top:1em; padding-right:1.0em; padding-bottom:1em; padding-left:1em",
        changed := false } ∧
    normalizeInlineStyle
        "padding-top:1em;padding-right:1em;padding-bottom:1em;padding-left:" 16 true =
      { style := "padding:1em", changed := true } := by
  refine ⟨by decide, by decide, by decide⟩

/-- Claim C3 (witness): the amended theorem applied to a style with all four
paddings present and textually equal. -/
theorem normalizeInlineStyle_padding_witness :
    (normalizeInlineStyle
        "padding-top:1em;padding-right:1em;padding-bottom:1em;padding-left:1em" 16 true).style =
      declsJoin (padCompress
        ((padPresentVals (convertedDecls
          "padding-top:1em;padding-right:1em;padding-bottom:1em;padding-left:1em" 16 true)).headD "")
        (convertedDecls
          "padding-top:1em;padding-right:1em;padding-bottom:1em;padding-left:1em" 16 true)) :=
  (normalizeInlineStyle_padding_compaction
      "padding-top:1em;padding-right:1em;padding-bottom:1em;padding-left:1em" 16 true).1
    (by decide) (by decide)

/-! ### The fake-button loop characterization (claim C5) -/

theorem fakeBtnScan_eq (fuel : Nat) : ∀ count l, count ≤ 10 →
    fakeBtnScan fuel count l =
      (((fakeBtnMatches fuel l).filter (fun t => !(fakeBtnSkip t))).take (10 - count)).map
        mkFakeIssue := by
  induction fuel with
  | zero => intro count l _; cases l <;> simp [fakeBtnScan, fakeBtnMatches]
  | succ n ih =>
      intro count l hc
      cases l with
      | nil => simp [fakeBtnScan, fakeBtnMatches]
      | cons c cs =>
          unfold fakeBtnScan fakeBtnMatches
          cases hm : fakeBtnMatchAt (c :: cs) with
          | none => exact ih count cs hc
          | some pr =>
              obtain ⟨tag, rest⟩ := pr
              by_cases hs : fakeBtnSkip tag
              · simp only [hs, if_true, List.filter]
                rw [ih count rest hc]
                simp [hs]
              · have hsf : fakeBtnSkip tag = false := by
                  simp only [Bool.not_eq_true] at hs; exact hs
                by_cases h10 : count + 1 > 10
                · have hce : count = 10 := by omega
                  subst hce
                  simp [hsf, List.filter]
                · simp only [hsf, Bool.false_eq_true, if_false, if_neg h10, List.filter,
                    Bool.not_false]
                  have harith : 10 - count = (10 - (count + 1)) + 1 := by omega
                  rw [ih (count + 1) rest (by omega), harith]
                  simp

/-- Claim C5 (amended): the fake-button pass reports exactly the matched
`<div>`/`<span>`-with-`onclick` tags that do **not** satisfy both the
role-button test and the tabindex-0 test (as written, the trailing `\b`
makes the tabindex test accept only an unquoted `0`), in scan order, capped
at the first 10; in particular at most 10 issues are ever emitted.  (The
claim as frozen says an element with at least one of the two attributes is
skipped; the code skips only when both tests pass — see the
counterexample.) -/
theorem fakeButtonIssues_spec (l : Chars) :
    fakeButtonIssues l =
      (((fakeBtnMatches l.length l).filter (fun t => !(fakeBtnSkip t))).take 10).map
        mkFakeIssue ∧
    (fakeButtonIssues l).length ≤ 10 := by
  have h := fakeBtnScan_eq l.length 0 l (by omega)
  refine ⟨by simpa using h, ?_⟩
  rw [fakeButtonIssues, h]
  simp [List.length_take]

/-- Claim C5 (counterexample): a `<div onclick=... role="button">` without
`tabindex` — one of the two attributes is present, yet the pass still emits
an issue, refuting the claim as frozen. -/
theorem fakeButton_role_only_counterexample :
    hasRoleBtn none "<div onclick=\"f()\" role=\"button\">".data = true ∧
    fakeButtonIssues "<div onclick=\"f()\" role=\"button\">x</div>".data =
      [mkFakeIssue "<div onclick=\"f()\" role=\"button\">".data] := by
  constructor
  · decide
  · decide

/-! ### Issue hygiene: every pass emits issues of its own rule, with the
`autoFixed ⇒ fixedSnippet` discipline and unset location sentinels -/

def IssueBasic (i : AccessibilityIssue) : Prop :=
  (i.autoFixed = true → i.fixedSnippet.isSome = true) ∧
  i.line = 0 ∧ i.column = 0 ∧ i.startOffset = 0 ∧ i.endOffset = 0

theorem IssueBasic_createIssue {r w t lv ms os : String} {fs : Option String}
    {af nm : Bool} {sg : Option String} (h : af = true → fs.isSome = true) :
    IssueBasic (createIssue r w t lv ms os fs af nm sg) := by
  refine ⟨h, rfl, rfl, rfl, rfl⟩

theorem gReplace_issues_pred {P : AccessibilityIssue → Prop}
    {matchAt : Option Char → Chars → Option (Chars × Chars)}
    {f : Chars → Chars × List AccessibilityIssue}
    (hf : ∀ m i, i ∈ (f m).2 → P i) :
    ∀ fuel prev l i, i ∈ (gReplace fuel matchAt f prev l).2 → P i := by
  intro fuel
  induction fuel with
  | zero => intro prev l i h; cases l <;> simp [gReplace] at h
  | succ n ih =>
      intro prev l i h
      cases l with
      | nil => simp [gReplace] at h
      | cons c cs =>
          rw [gReplace] at h
          cases hm : matchAt prev (c :: cs) with
          | some pr =>
              rw [hm] at h
              simp only [List.mem_append] at h
              rcases h with h | h
              · exact hf pr.1 i h
              · exact ih _ pr.2 i h
          | none =>
              rw [hm] at h
              exact ih (some c) cs i h

theorem gReplace_nomatch {Q : Chars → Prop}
    {matchAt : Option Char → Chars → Option (Chars × Chars)}
    {f : Chars → Chars × List AccessibilityIssue}
    (hQtail : ∀ c cs, Q (c :: cs) → Q cs)
    (hQnone : ∀ prev l, Q l → matchAt prev l = none) :
    ∀ fuel prev l, Q l → gReplace fuel matchAt f prev l = (l, []) := by
  intro fuel
  induction fuel with
  | zero => intro prev l _; cases l <;> simp [gReplace]
  | succ n ih =>
      intro prev l hQ
      cases l with
      | nil => simp [gReplace]
      | cons c cs =>
          rw [gReplace, hQnone prev _ hQ, ih (some c) cs (hQtail c cs hQ)]

theorem frameReplacer_issues (config : Option RepairConfig) (m : Chars)
    (i : AccessibilityIssue) (h : i ∈ (frameReplacer config m).2) :
    i.ruleId = "frame-title" ∧ IssueBasic i := by
  simp only [frameReplacer] at h
  split at h
  · simp only [List.mem_singleton] at h
    subst h
    exact ⟨rfl, IssueBasic_createIssue (fun _ => rfl)⟩
  · simp at h

theorem imgReplacer_issues (config : Option RepairConfig) (m : Chars)
    (i : AccessibilityIssue) (h : i ∈ (imgReplacer config m).2) :
    i.ruleId = "img-alt" ∧ IssueBasic i := by
  simp only [imgReplacer] at h
  split at h
  · simp only [List.mem_singleton] at h
    subst h
    exact ⟨rfl, IssueBasic_createIssue (fun _ => rfl)⟩
  · simp at h

theorem linkImgReplacer_issues (config : Option RepairConfig) (m : Chars)
    (i : AccessibilityIssue) (h : i ∈ (linkImgReplacer config m).2) :
    i.ruleId = "img-alt" ∧ IssueBasic i := by
  simp only [linkImgReplacer] at h
  split at h
  · simp only [List.mem_singleton] at h
    subst h
    exact ⟨rfl, IssueBasic_createIssue (fun _ => rfl)⟩
  · simp at h

theorem trReplacer_issues (config : Option RepairConfig) (m : Chars)
    (i : AccessibilityIssue) (h : i ∈ (trReplacer config m).2) :
    i.ruleId = "table-row-header" ∧ IssueBasic i := by
  simp only [trReplacer] at h
  split at h
  · simp at h
  · split at h
    · simp at h
    · simp only [List.mem_singleton] at h
      subst h
      exact ⟨rfl, IssueBasic_createIssue (fun _ => rfl)⟩

theorem thScopeReplacer_issues (m : Chars)
    (i : AccessibilityIssue) (h : i ∈ (thScopeReplacer m).2) :
    i.ruleId = "th-scope" ∧ IssueBasic i := by
  simp only [thScopeReplacer] at h
  split at h
  · simp at h
  · simp only [List.mem_singleton] at h
    subst h
    exact ⟨rfl, IssueBasic_createIssue (fun _ => rfl)⟩

theorem cssInlineReplacer_issues (config : Option RepairConfig) (m : Chars)
    (i : AccessibilityIssue) (h : i ∈ (cssInlineReplacer config m).2) :
    i.ruleId = "css-relative-units" ∧ IssueBasic i := by
  simp only [cssInlineReplacer] at h
  split at h
  · simp at h
  · simp only [List.mem_singleton] at h
    subst h
    exact ⟨rfl, IssueBasic_createIssue (fun _ => rfl)⟩

theorem styleTagReplacer_issues (config : Option RepairConfig) (m : Chars)
    (i : AccessibilityIssue) (h : i ∈ (styleTagReplacer config m).2) :
    i.ruleId = "css-style-tag" ∧ IssueBasic i := by
  simp only [styleTagReplacer] at h
  split at h
  · simp only [List.mem_singleton] at h
    subst h
    exact ⟨rfl, IssueBasic_createIssue (fun _ => rfl)⟩
  · simp at h

theorem formLabelReplacer_issues (labelSet : List String) (m : Chars)
    (i : AccessibilityIssue) (h : i ∈ (formLabelReplacer labelSet m).2) :
    i.ruleId = "form-label" ∧ IssueBasic i := by
  simp only [formLabelReplacer] at h
  split at h
  · simp at h
  · split at h
    · simp at h
    · simp only [List.mem_singleton] at h
      subst h
      exact ⟨rfl, IssueBasic_createIssue (by intro hx; exact absurd hx (by decide))⟩

theorem skipLinkIssues_ok (config : Option RepairConfig) (l : Chars)
    (i : AccessibilityIssue) (h : i ∈ skipLinkIssues config l) :
    ruleEnabled config i.ruleId = true ∧ IssueBasic i := by
  simp only [skipLinkIssues] at h
  split at h
  · rename_i hg
    split at h
    · simp only [List.mem_singleton] at h
      subst h
      exact ⟨hg, IssueBasic_createIssue (by intro hx; exact absurd hx (by decide))⟩
    · simp at h
  · simp at h

theorem colorScan_shape (fuel : Nat) : ∀ warned l i, i ∈ colorScan fuel warned l →
    ∃ m, i = mkColorIssue m := by
  induction fuel with
  | zero => intro warned l i h; cases l <;> simp [colorScan] at h
  | succ n ih =>
      intro warned l i h
      cases l with
      | nil => simp [colorScan] at h
      | cons c cs =>
          rw [colorScan] at h
          split at h
          · split at h
            · exact ih _ _ i h
            · split at h
              · simp at h
              · rcases List.mem_cons.1 h with h | h
                · exact ⟨_, h⟩
                · exact ih _ _ i h
          · exact ih _ _ i h

theorem colorContrastIssues_ok (config : Option RepairConfig) (l : Chars)
    (i : AccessibilityIssue) (h : i ∈ colorContrastIssues config l) :
    ruleEnabled config i.ruleId = true ∧ IssueBasic i := by
  simp only [colorContrastIssues] at h
  split at h
  · rename_i hg
    obtain ⟨m, hm⟩ := colorScan_shape _ _ _ _ h
    subst hm
    exact ⟨hg, IssueBasic_createIssue (by intro hx; exact absurd hx (by decide))⟩
  · simp at h

theorem fakeBtnScan_shape (fuel : Nat) : ∀ count l i, i ∈ fakeBtnScan fuel count l →
    ∃ m, i = mkFakeIssue m := by
  induction fuel with
  | zero => intro count l i h; cases l <;> simp [fakeBtnScan] at h
  | succ n ih =>
      intro count l i h
      cases l with
      | nil => simp [fakeBtnScan] at h
      | cons c cs =>
          rw [fakeBtnScan] at h
          split at h
          · split at h
            · exact ih _ _ i h
            · split at h
              · simp at h
              · rcases List.mem_cons.1 h with h | h
                · exact ⟨_, h⟩
                · exact ih _ _ i h
          · exact ih _ _ i h

theorem anchorImgPart_issues (config : Option RepairConfig) (inner0 : Chars)
    (i : AccessibilityIssue)
    (h : i ∈ (if ruleEnabled config "img-alt" = true then
        gReplace inner0.length (fun _ s => tagMatchAt ["img".data] s)
          (linkImgReplacer config) none inner0
      else (inner0, [])).2) :
    ruleEnabled config i.ruleId = true ∧ IssueBasic i := by
  split at h
  · rename_i hg
    have hp := gReplace_issues_pred (P := fun j => j.ruleId = "img-alt" ∧ IssueBasic j)
      (fun m j hj => linkImgReplacer_issues config m j hj) inner0.length none inner0 i h
    exact ⟨by rw [hp.1]; exact hg, hp.2⟩
  · simp at h

theorem anchorBranch_issues (config : Option RepairConfig)
    (full aOpen inner linkName : Chars) (imgIssues : List AccessibilityIssue)
    (himg : ∀ j ∈ imgIssues, ruleEnabled config j.ruleId = true ∧ IssueBasic j)
    (i : AccessibilityIssue)
    (h : i ∈ (anchorBranch config full aOpen inner linkName imgIssues).2) :
    ruleEnabled config i.ruleId = true ∧ IssueBasic i := by
  simp only [anchorBranch] at h
  split at h
  · rcases List.mem_append.1 h with h | h
    · exact himg i h
    · split at h
      · rename_i hg
        simp only [List.mem_singleton] at h
        subst h
        exact ⟨hg, IssueBasic_createIssue (fun _ => rfl)⟩
      · simp at h
  · split at h
    · rename_i hc
      rcases List.mem_append.1 h with h | h
      · exact himg i h
      · simp only [List.mem_singleton] at h
        subst h
        simp only [Bool.and_eq_true] at hc
        exact ⟨hc.1.1.2, IssueBasic_createIssue (fun _ => rfl)⟩
    · split at h
      · rename_i hc
        split at h <;>
        · rcases List.mem_append.1 h with h | h
          · exact himg i h
          · simp only [List.mem_singleton] at h
            subst h
            simp only [Bool.and_eq_true] at hc
            exact ⟨hc.1, IssueBasic_createIssue (fun _ => rfl)⟩
      · split at h
        · rename_i hc
          rcases List.mem_append.1 h with h | h
          · exact himg i h
          · simp only [List.mem_singleton] at h
            subst h
            simp only [Bool.and_eq_true] at hc
            exact ⟨hc.1.2, IssueBasic_createIssue (fun _ => rfl)⟩
        · split at h
          · rename_i hc
            split at h
            · rcases List.mem_append.1 h with h | h
              · exact himg i h
              · simp only [List.mem_singleton] at h
                subst h
                simp only [Bool.and_eq_true] at hc
                exact ⟨hc.2, IssueBasic_createIssue (fun _ => rfl)⟩
            · exact himg i h
          · exact himg i h

theorem anchorFix_issues (config : Option RepairConfig) (full : Chars)
    (i : AccessibilityIssue) (h : i ∈ (anchorFix config full).2) :
    ruleEnabled config i.ruleId = true ∧ IssueBasic i := by
  simp only [anchorFix] at h
  split at h
  · simp at h
  · exact anchorBranch_issues config _ _ _ _ _
      (fun j hj => anchorImgPart_issues config _ j hj) i h

theorem gatedPass_issues {config : Option RepairConfig} {rid : String}
    {matchAt : Option Char → Chars → Option (Chars × Chars)}
    {f : Chars → Chars × List AccessibilityIssue}
    (hf : ∀ m i, i ∈ (f m).2 → i.ruleId = rid ∧ IssueBasic i)
    (l : Chars) (i : AccessibilityIssue)
    (h : i ∈ (if ruleEnabled config rid then gReplace l.length matchAt f none l
              else (l, [])).2) :
    ruleEnabled config i.ruleId = true ∧ IssueBasic i := by
  split at h
  · rename_i hg
    have hp := gReplace_issues_pred (P := fun j => j.ruleId = rid ∧ IssueBasic j)
      hf l.length none l i h
    exact ⟨by rw [hp.1]; exact hg, hp.2⟩
  · simp at h

theorem frameTitlePass_issues (config : Option RepairConfig) (l : Chars)
    (i : AccessibilityIssue) (h : i ∈ (frameTitlePass config l).2) :
    ruleEnabled config i.ruleId = true ∧ IssueBasic i :=
  gatedPass_issues (fun m j hj => frameReplacer_issues config m j hj) l i h

theorem imgAltPass_issues (config : Option RepairConfig) (l : Chars)
    (i : AccessibilityIssue) (h : i ∈ (imgAltPass config l).2) :
    ruleEnabled config i.ruleId = true ∧ IssueBasic i :=
  gatedPass_issues (fun m j hj => imgReplacer_issues config m j hj) l i h

theorem anchorPass_issues (config : Option RepairConfig) (l : Chars)
    (i : AccessibilityIssue) (h : i ∈ (anchorPass config l).2) :
    ruleEnabled config i.ruleId = true ∧ IssueBasic i :=
  gReplace_issues_pred (P := fun j => ruleEnabled config j.ruleId = true ∧ IssueBasic j)
    (fun m j hj => anchorFix_issues config m j hj) l.length none l i h

theorem tableRowPass_issues (config : Option RepairConfig) (l : Chars)
    (i : AccessibilityIssue) (h : i ∈ (tableRowPass config l).2) :
    ruleEnabled config i.ruleId = true ∧ IssueBasic i :=
  gatedPass_issues (fun m j hj => trReplacer_issues config m j hj) l i h

theorem thScopePass_issues (config : Option RepairConfig) (l : Chars)
    (i : AccessibilityIssue) (h : i ∈ (thScopePass config l).2) :
    ruleEnabled config i.ruleId = true ∧ IssueBasic i :=
  gatedPass_issues (fun m j hj => thScopeReplacer_issues m j hj) l i h

theorem cssInlinePass_issues (config : Option RepairConfig) (l : Chars)
    (i : AccessibilityIssue) (h : i ∈ (cssInlinePass config l).2) :
    ruleEnabled config i.ruleId = true ∧ IssueBasic i :=
  gatedPass_issues (fun m j hj => cssInlineReplacer_issues config m j hj) l i h

theorem styleTagPass_issues (config : Option RepairConfig) (l : Chars)
    (i : AccessibilityIssue) (h : i ∈ (styleTagPass config l).2) :
    ruleEnabled config i.ruleId = true ∧ IssueBasic i :=
  gatedPass_issues (fun m j hj => styleTagReplacer_issues config m j hj) l i h

theorem formLabelPass_issues (config : Option RepairConfig) (l : Chars)
    (i : AccessibilityIssue) (h : i ∈ (formLabelPass config l).2) :
    ruleEnabled config i.ruleId = true ∧ IssueBasic i :=
  gatedPass_issues (fun m j hj => formLabelReplacer_issues _ m j hj) l i h

theorem fakeButtonPass_issues (config : Option RepairConfig) (l : Chars)
    (i : AccessibilityIssue) (h : i ∈ fakeButtonPass config l) :
    ruleEnabled config i.ruleId = true ∧ IssueBasic i := by
  simp only [fakeButtonPass] at h
  split at h
  · rename_i hg
    obtain ⟨m, hm⟩ := fakeBtnScan_shape _ _ _ _ h
    subst hm
    exact ⟨hg, IssueBasic_createIssue (by intro hx; exact absurd hx (by decide))⟩
  · simp at h

theorem runPasses_issues_ok (html : String) (config : Option RepairConfig)
    (i : AccessibilityIssue) (h : i ∈ (runPasses html config).2) :
    ruleEnabled config i.ruleId = true ∧ IssueBasic i := by
  simp only [runPasses, List.append_assoc, List.mem_append] at h
  rcases h with h | h | h | h | h | h | h | h | h | h | h
  · exact frameTitlePass_issues config _ i h
  · exact imgAltPass_issues config _ i h
  · exact anchorPass_issues config _ i h
  · exact tableRowPass_issues config _ i h
  · exact thScopePass_issues config _ i h
  · exact cssInlinePass_issues config _ i h
  · exact styleTagPass_issues config _ i h
  · exact formLabelPass_issues config _ i h
  · exact skipLinkIssues_ok config _ i h
  · exact colorContrastIssues_ok config _ i h
  · exact fakeButtonPass_issues config _ i h

theorem locFill_preserve (html : Chars) (i : AccessibilityIssue) :
    (locFill html i).ruleId = i.ruleId ∧ (locFill html i).autoFixed = i.autoFixed ∧
    (locFill html i).fixedSnippet = i.fixedSnippet ∧
    (locFill html i).originalSnippet = i.originalSnippet ∧
    (locFill html i).needsManualReview = i.needsManualReview := by
  unfold locFill
  split
  · exact ⟨rfl, rfl, rfl, rfl, rfl⟩
  · split
    · exact ⟨rfl, rfl, rfl, rfl, rfl⟩
    · split
      · exact ⟨rfl, rfl, rfl, rfl, rfl⟩
      · exact ⟨rfl, rfl, rfl, rfl, rfl⟩

theorem computeLineCol_spec (s : Chars) (idx : Nat) :
    computeLineCol s idx =
      ((s.take idx).count '\n' + 1,
       ((s.take idx).reverse.takeWhile (· ≠ '\n')).length + 1) := by
  unfold computeLineCol
  split
  · rename_i h
    subst h
    simp
  · rfl

/-- Claim C2 (amended): every issue `repairHtml` emits belongs to a rule
that is enabled under the supplied configuration (explicit enabled-set:
exactly its members; otherwise: everything outside the disabled-set).  (The
claim as frozen also asserts that a disabled rule performs no mutation; the
anchor pass's empty-link placeholder injection is not gated by
`ruleEnabled("link-text")` — only its issue is — so that part fails, see the
counterexample.) -/
theorem repairHtml_issues_enabled (html : String) (config : Option RepairConfig)
    (i : AccessibilityIssue) (h : i ∈ (repairHtml html config).issues) :
    ruleEnabled config i.ruleId = true := by
  simp only [repairHtml, List.mem_map] at h
  obtain ⟨r, hr, hi⟩ := h
  have hok := runPasses_issues_ok html config r hr
  rw [← hi, (locFill_preserve html.data r).1]
  exact hok.1

def thIssueA : AccessibilityIssue where
  ruleId := "th-scope"
  wcagCode := "1.3.1"
  taiwanCode := "HM1310101C"
  level := "A"
  message := "<th> 缺少 scope（已補上 scope=\"col\"）"
  line := 1
  column := 1
  startOffset := 0
  endOffset := 4
  originalSnippet := "<th>"
  fixedSnippet := some "<th scope=\"col\">"
  autoFixed := true
  needsManualReview := false
  suggestion := some "若此 th 為列標題請改為 scope=\"row\"；若為欄標題則 scope=\"col\""

/-- Claim C2 (witness): the issue-enablement theorem applied to the sole
issue of a concrete run. -/
theorem repairHtml_issues_enabled_witness : ruleEnabled none "th-scope" = true :=
  repairHtml_issues_enabled "<th>A</th>" none thIssueA (by decide)

/-- Claim C2 (counterexample): with `link-text` disabled the engine still
injects the placeholder link text and title (the mutation is not gated —
only the issue is), refuting "a rule not in the set neither mutates the
output nor emits issues". -/
theorem disabled_link_text_still_mutates_counterexample :
    ruleEnabled
        (some { rules := some { disabled := some ["link-text"], enabled := none },
                placeholders := none, basePx := none, removeWidth := none })
        "link-text" = false ∧
    (repairHtml "<a href=\"/home\"></a>"
        (some { rules := some { disabled := some ["link-text"], enabled := none },
                placeholders := none, basePx := none, removeWidth := none })).issues = [] ∧
    (repairHtml "<a href=\"/home\"></a>"
        (some { rules := some { disabled := some ["link-text"], enabled := none },
                placeholders := none, basePx := none, removeWidth := none })).repairedHtml =
      "<a href=\"/home\" title=\"（請補上鏈結目的）\">（請補上鏈結文字）</a>" ∧
    (repairHtml "<a href=\"/home\"></a>"
        (some { rules := some { disabled := some ["link-text"], enabled := none },
                placeholders := none, basePx := none, removeWidth := none })).repairedHtml ≠
      "<a href=\"/home\"></a>" := by
  refine ⟨by decide, by decide, by decide, by decide⟩

/-- Claim C8: in every result of `repairHtml`, an issue marked
`autoFixed` carries a `fixedSnippet`. -/
theorem repairHtml_autoFixed_has_snippet (html : String) (config : Option RepairConfig)
    (i : AccessibilityIssue) (h : i ∈ (repairHtml html config).issues)
    (haf : i.autoFixed = true) : i.fixedSnippet.isSome = true := by
  simp only [repairHtml, List.mem_map] at h
  obtain ⟨r, hr, hi⟩ := h
  have hok := runPasses_issues_ok html config r hr
  rw [← hi, (locFill_preserve html.data r).2.2.1]
  rw [← hi, (locFill_preserve html.data r).2.1] at haf
  exact hok.2.1 haf

def imgIssueB : AccessibilityIssue where
  ruleId := "img-alt"
  wcagCode := "1.1.1"
  taiwanCode := "HM1110101C"
  level := "A"
  message := "圖片缺少 alt 屬性"
  line := 1
  column := 1
  startOffset := 0
  endOffset := 13
  originalSnippet := "<img src=\"b\">"
  fixedSnippet := some "<img src=\"b\" alt=\"（請補上圖片替代文字）\">"
  autoFixed := true
  needsManualReview := true
  suggestion := some "若為裝飾圖片可使用 alt=\"\"；若為資訊性/功能性圖片請描述其用途/內容"

/-- Claim C8 (witness): the snippet-discipline theorem applied to the sole
issue of a concrete run. -/
theorem repairHtml_autoFixed_has_snippet_witness : imgIssueB.fixedSnippet.isSome = true :=
  repairHtml_autoFixed_has_snippet "<img src=\"b\">" none imgIssueB (by decide) (by decide)

/-- Claim C9: after all passes, an issue whose recorded original snippet is
non-empty, is not the `"(document)"` sentinel and occurs in the pristine
input gets its offsets set to the first occurrence's span and its 1-based
line/column computed by counting newlines before the match; otherwise all
four location fields stay at the unset sentinel 0. -/
theorem repairHtml_issue_locations (html : String) (config : Option RepairConfig)
    (i : AccessibilityIssue) (h : i ∈ (repairHtml html config).issues) :
    (∀ idx : Nat, i.originalSnippet ≠ "" → i.originalSnippet ≠ "(document)" →
      indexOfSub html.data i.originalSnippet.data = some idx →
      i.startOffset = idx ∧ i.endOffset = idx + i.originalSnippet.data.length ∧
      i.line = (html.data.take idx).count '\n' + 1 ∧
      i.column = ((html.data.take idx).reverse.takeWhile (· ≠ '\n')).length + 1) ∧
    ((i.originalSnippet = "" ∨ i.originalSnippet = "(document)" ∨
        indexOfSub html.data i.originalSnippet.data = none) →
      i.startOffset = 0 ∧ i.endOffset = 0 ∧ i.line = 0 ∧ i.column = 0) := by
  simp only [repairHtml, List.mem_map] at h
  obtain ⟨r, hr, hi⟩ := h
  have hok := runPasses_issues_ok html config r hr
  obtain ⟨-, hline, hcol, hstart, hend⟩ := hok.2
  subst hi
  unfold locFill
  rw [if_neg (by simp [hstart, hline])]
  split
  · rename_i hsent
    constructor
    · intro idx hne1 hne2 _
      rcases hsent with hs | hs
      · exact absurd hs hne1
      · exact absurd hs hne2
    · intro _
      exact ⟨hstart, hend, hline, hcol⟩
  · rename_i hsent
    push_neg at hsent
    cases hx : indexOfSub html.data r.originalSnippet.data with
    | none =>
        constructor
        · intro idx _ _ hidx
          rw [hx] at hidx
          exact Option.noConfusion hidx
        · intro _
          exact ⟨hstart, hend, hline, hcol⟩
    | some idx0 =>
        constructor
        · intro idx _ _ hidx
          rw [hx] at hidx
          cases hidx
          refine ⟨rfl, rfl, ?_, ?_⟩
          · show (computeLineCol html.data idx0).1 = _
            rw [computeLineCol_spec]
          · show (computeLineCol html.data idx0).2 = _
            rw [computeLineCol_spec]
        · intro hd
          rcases hd with h1 | h1 | h1
          · exact absurd h1 hsent.1
          · exact absurd h1 hsent.2
          · rw [hx] at h1
            exact Option.noConfusion h1

def thIssueC : AccessibilityIssue where
  ruleId := "th-scope"
  wcagCode := "1.3.1"
  taiwanCode := "HM1310101C"
  level := "A"
  message := "<th> 缺少 scope（已補上 scope=\"col\"）"
  line := 2
  column := 1
  startOffset := 1
  endOffset := 5
  originalSnippet := "<th>"
  fixedSnippet := some "<th scope=\"col\">"
  autoFixed := true
  needsManualReview := false
  suggestion := some "若此 th 為列標題請改為 scope=\"row\"；若為欄標題則 scope=\"col\""

/-- Claim C9 (witness): the location theorem applied to the issue of a
concrete run whose snippet sits after a newline. -/
theorem repairHtml_issue_locations_witness :
    thIssueC.startOffset = 1 ∧ thIssueC.endOffset = 1 + "<th>".data.length ∧
    thIssueC.line = ("\n<th>C</th>".data.take 1).count '\n' + 1 ∧
    thIssueC.column =
      (("\n<th>C</th>".data.take 1).reverse.takeWhile (· ≠ '\n')).length + 1 :=
  (repairHtml_issue_locations "\n<th>C</th>" none thIssueC (by decide)).1 1
    (by decide) (by decide) (by decide)

/-- Claim C10: the result record wiring — `originalHtml` is the pristine
input and the summary counters are the length of the issue sequence and the
counts of its `autoFixed` / `needsManualReview` members. -/
theorem repairHtml_result_shape (html : String) (config : Option RepairConfig) :
    (repairHtml html config).originalHtml = html ∧
    (repairHtml html config).summary.totalIssues =
      (repairHtml html config).issues.length ∧
    (repairHtml html config).summary.autoFixed =
      ((repairHtml html config).issues.filter (·.autoFixed)).length ∧
    (repairHtml html config).summary.needsManualReview =
      ((repairHtml html config).issues.filter (·.needsManualReview)).length :=
  ⟨rfl, rfl, rfl, rfl⟩

/-! ### Degradation lemmas: inputs no pass can match (claim C7) -/

theorem tagMatchAt_none (names : List Chars) (l : Chars) (h : ∀ c ∈ l, c ≠ '<') :
    tagMatchAt names l = none := by
  cases l with
  | nil => rfl
  | cons c cs =>
      have hc : c ≠ '<' := h c (by simp)
      unfold tagMatchAt
      split
      · rename_i l1 heq
        injection heq with h1 _
        exact absurd h1 hc
      · rfl

theorem spanMatchAt_none (names : List Chars) (closePat l : Chars)
    (h : ∀ c ∈ l, c ≠ '<') : spanMatchAt names closePat l = none := by
  simp [spanMatchAt, tagMatchAt_none names l h]

theorem ciContains_false_not_starts {hay pat : Chars}
    (h : ciContains hay pat = false) : ciStartsWith pat hay = false := by
  cases hcs : ciStartsWith pat hay
  · rfl
  · unfold ciContains at h
    rw [hcs] at h
    simp at h

theorem ciContains_cons_false {c : Char} {cs pat : Chars}
    (h : ciContains (c :: cs) pat = false) : ciContains cs pat = false := by
  unfold ciContains at h
  split at h
  · simp at h
  · exact h

theorem styleAttrMatchAt_none (prev : Option Char) (l : Chars)
    (h : ciStartsWith "style".data l = false) : styleAttrMatchAt prev l = none := by
  unfold styleAttrMatchAt
  split
  · rfl
  · have hnone : ciStrip "style".data l = none := by
      cases hc : ciStrip "style".data l with
      | none => rfl
      | some v => rw [ciStartsWith, hc] at h; simp at h
    rw [hnone]

theorem colorStyleMatchAt_none (l : Chars)
    (h : ciStartsWith "style".data l = false) : colorStyleMatchAt l = none := by
  unfold colorStyleMatchAt
  have hnone : ciStrip "style".data l = none := by
    cases hc : ciStrip "style".data l with
    | none => rfl
    | some v => rw [ciStartsWith, hc] at h; simp at h
  rw [hnone]

theorem existsTagHead_none (names : List Chars) (l : Chars) (h : ∀ c ∈ l, c ≠ '<') :
    existsTagHead names l = false := by
  induction l with
  | nil => rfl
  | cons c cs ih =>
      have hc : c ≠ '<' := h c (by simp)
      rw [existsTagHead]
      simp only [if_neg hc, Bool.false_or]
      exact ih (fun x hx => h x (by simp [hx]))

theorem fakeBtnMatchAt_none (l : Chars) (h : ∀ c ∈ l, c ≠ '<') :
    fakeBtnMatchAt l = none := by
  cases l with
  | nil => rfl
  | cons c cs =>
      have hc : c ≠ '<' := h c (by simp)
      unfold fakeBtnMatchAt
      split
      · rename_i l1 heq
        injection heq with h1 _
        exact absurd h1 hc
      · rfl

theorem colorScan_nomatch (fuel : Nat) : ∀ warned l,
    ciContains l "style".data = false → colorScan fuel warned l = [] := by
  induction fuel with
  | zero => intro warned l _; cases l <;> simp [colorScan]
  | succ n ih =>
      intro warned l hq
      cases l with
      | nil => simp [colorScan]
      | cons c cs =>
          rw [colorScan, colorStyleMatchAt_none _ (ciContains_false_not_starts hq)]
          exact ih warned cs (ciContains_cons_false hq)

theorem fakeBtnScan_nomatch (fuel : Nat) : ∀ count l,
    (∀ c ∈ l, c ≠ '<') → fakeBtnScan fuel count l = [] := by
  induction fuel with
  | zero => intro count l _; cases l <;> simp [fakeBtnScan]
  | succ n ih =>
      intro count l hq
      cases l with
      | nil => simp [fakeBtnScan]
      | cons c cs =>
          rw [fakeBtnScan, fakeBtnMatchAt_none _ hq]
          exact ih count cs (fun x hx => hq x (by simp [hx]))

theorem noLtTail : ∀ (c : Char) (cs : Chars),
    (∀ x ∈ c :: cs, x ≠ '<') → (∀ x ∈ cs, x ≠ '<') :=
  fun _ cs hq x hx => hq x (by simp [hx])

/-- Claim C7: the engine is a total function; on inputs where no pattern
can match — no `<` anywhere and no occurrence of `style` in any letter case
— every pass degrades to "no match, leave unchanged": the repaired output
is the input, no issues are emitted, and the summary is all zeros. -/
theorem repairHtml_total_degrades (html : String) (config : Option RepairConfig)
    (h1 : ∀ c ∈ html.data, c ≠ '<')
    (h2 : ciContains html.data "style".data = false) :
    repairHtml html config =
      { originalHtml := html, repairedHtml := html, issues := [],
        summary := { totalIssues := 0, autoFixed := 0, needsManualReview := 0 } } := by
  have hQ1 := fun (prev : Option Char) (l : Chars) (hq : ∀ c ∈ l, c ≠ '<') =>
    tagMatchAt_none ["iframe".data, "frame".data] l hq
  have hp1 : frameTitlePass config html.data = (html.data, []) := by
    unfold frameTitlePass
    split
    · exact gReplace_nomatch noLtTail
        (fun prev l hq => tagMatchAt_none _ l hq) _ none html.data h1
    · rfl
  have hp2 : imgAltPass config html.data = (html.data, []) := by
    unfold imgAltPass
    split
    · exact gReplace_nomatch noLtTail
        (fun prev l hq => tagMatchAt_none _ l hq) _ none html.data h1
    · rfl
  have hp3 : anchorPass config html.data = (html.data, []) := by
    unfold anchorPass
    exact gReplace_nomatch noLtTail
      (fun prev l hq => spanMatchAt_none _ _ l hq) _ none html.data h1
  have hp4 : tableRowPass config html.data = (html.data, []) := by
    unfold tableRowPass
    split
    · exact gReplace_nomatch noLtTail
        (fun prev l hq => spanMatchAt_none _ _ l hq) _ none html.data h1
    · rfl
  have hp45 : thScopePass config html.data = (html.data, []) := by
    unfold thScopePass
    split
    · exact gReplace_nomatch noLtTail
        (fun prev l hq => tagMatchAt_none _ l hq) _ none html.data h1
    · rfl
  have hp5 : cssInlinePass config html.data = (html.data, []) := by
    unfold cssInlinePass
    split
    · exact gReplace_nomatch (Q := fun l => ciContains l "style".data = false)
        (fun c cs hq => ciContains_cons_false hq)
        (fun prev l hq => styleAttrMatchAt_none prev l (ciContains_false_not_starts hq))
        _ none html.data h2
    · rfl
  have hp6 : styleTagPass config html.data = (html.data, []) := by
    unfold styleTagPass
    split
    · exact gReplace_nomatch noLtTail
        (fun prev l hq => spanMatchAt_none _ _ l hq) _ none html.data h1
    · rfl
  have hp7 : formLabelPass config html.data = (html.data, []) := by
    unfold formLabelPass
    split
    · exact gReplace_nomatch noLtTail
        (fun prev l hq => tagMatchAt_none _ l hq) _ none html.data h1
    · rfl
  have hskip : skipLinkIssues config html.data = [] := by
    have hn1 := existsTagHead_none ["nav".data, "header".data] html.data h1
    have hn2 := existsTagHead_none ["main".data] html.data h1
    simp [skipLinkIssues, hn1, hn2]
  have hcolor : colorContrastIssues config html.data = [] := by
    have hc := colorScan_nomatch html.data.length 0 html.data h2
    unfold colorContrastIssues
    split
    · exact hc
    · rfl
  have hfake : fakeButtonPass config html.data = [] := by
    have hf := fakeBtnScan_nomatch html.data.length 0 html.data h1
    unfold fakeButtonPass
    split
    · exact hf
    · rfl
  have hr : runPasses html config = (html.data, []) := by
    simp only [runPasses, hp1, hp2, hp3, hp4, hp45, hp5, hp6, hp7, hskip, hcolor, hfake]
    rfl
  simp only [repairHtml, hr]
  rfl

/-- Claim C7 (witness): a concrete plain-text input passes through
untouched. -/
theorem repairHtml_total_degrades_witness :
    repairHtml "hello, world" none =
      { originalHtml := "hello, world", repairedHtml := "hello, world", issues := [],
        summary := { totalIssues := 0, autoFixed := 0, needsManualReview := 0 } } :=
  repairHtml_total_degrades "hello, world" none (by decide) (by decide)

/-- Claim C1 (code-bug evidence): on Scenario E — an anchor with `href`,
`target="_blank"` and the existing keyword-free title `說明` — the branch
that should prepend the new-window hint calls `addOrUpdateAttr` on a
non-empty `title`, which never overwrites: the repaired output is byte-equal
to the input and the hint appears nowhere, yet a `link-new-window` issue is
emitted with `autoFixed = true` and a `fixedSnippet` identical to the
original snippet. -/
theorem linkNewWindow_hint_never_applied :
    (repairHtml "<a href=\"/x\" target=\"_blank\" title=\"說明\">連結</a>" none).repairedHtml =
      "<a href=\"/x\" target=\"_blank\" title=\"說明\">連結</a>" ∧
    (repairHtml "<a href=\"/x\" target=\"_blank\" title=\"說明\">連結</a>" none).issues.map
        (·.ruleId) = ["link-new-window"] ∧
    (repairHtml "<a href=\"/x\" target=\"_blank\" title=\"說明\">連結</a>" none).summary.autoFixed = 1 ∧
    (repairHtml "<a href=\"/x\" target=\"_blank\" title=\"說明\">連結</a>" none).issues.map
        (·.fixedSnippet) =
      [some "<a href=\"/x\" target=\"_blank\" title=\"說明\">連結</a>"] ∧
    containsSub
      (repairHtml "<a href=\"/x\" target=\"_blank\" title=\"說明\">連結</a>" none).repairedHtml.data
      "在新視窗".data = false := by
  refine ⟨by decide, by decide, by decide, by decide, by decide⟩

/-- Claim C4 (code-bug evidence): because the Scenario E "fix" never lands
in the output, running the engine again on its own `repairedHtml` with the
same (default) configuration re-emits the very same `autoFixed`
`link-new-window` issue — a rule that already fired in the first run fires
again in the second. -/
theorem rerun_reemits_link_new_window :
    (repairHtml "<a href=\"/x\" target=\"_blank\" title=\"說明\">連結</a>" none).repairedHtml =
      "<a href=\"/x\" target=\"_blank\" title=\"說明\">連結</a>" ∧
    ((repairHtml "<a href=\"/x\" target=\"_blank\" title=\"說明\">連結</a>" none).issues.filter
        (fun i => decide (i.ruleId = "link-new-window") && i.autoFixed)).length = 1 ∧
    ((repairHtml
        ((repairHtml "<a href=\"/x\" target=\"_blank\" title=\"說明\">連結</a>" none).repairedHtml)
        none).issues.filter
        (fun i => decide (i.ruleId = "link-new-window") && i.autoFixed)).length = 1 ∧
    (repairHtml
        ((repairHtml "<a href=\"/x\" target=\"_blank\" title=\"說明\">連結</a>" none).repairedHtml)
        none).summary.autoFixed = 1 := by
  refine ⟨by decide, by decide, by decide, by decide⟩
